import Mathlib

/-!
# nanoftp_client: reply reader and session controller

A shallow embedding of `src/main.cpp`.

* A `std::string` is a `List Char`; a `char` is a `Char`.
* A socket is seen through the results of the system calls made on it: the
  results of successive one-byte `read` calls (`none` when `read` returns a
  value `<= 0`), the results of successive block `read` calls (the empty block
  when `read` returns a value `<= 0`) and the results of the `write` calls
  whose return value the program inspects.  Once the recorded results are
  used up, `read` reports end of stream and `write` accepts everything.
* The network and the local file system are a `World` that is threaded through
  every operation; everything the program does to the outside is appended to
  `World.log`.
* Diagnostics written to `std::cerr` are not modelled.
-/

namespace NanoFtp

/-! ## Reply reader -/

/-- The `while (true)` loop of `read_line`: `line` and `last_was_cr` are the
local variables, the first argument holds the results of the coming one-byte
`read` calls.  Returns the line and what is left to read. -/
def read_line_loop : List (Option Char) → List Char → Bool → List Char × List (Option Char)
  | [], line, _ => (line, [])
  | none :: rest, line, _ => (line, rest)
  | some c :: rest, line, last_was_cr =>
    if c = '\r' then read_line_loop rest line true
    else if c = '\n' then (line, rest)
    else read_line_loop rest ((if last_was_cr then line ++ ['\r'] else line) ++ [c]) false

/-- Function `read_line(sockfd)` on the read results of the socket. -/
def read_line (rx : List (Option Char)) : List Char × List (Option Char) :=
  read_line_loop rx [] false

/-- The test `l.size() >= 4 && l.substr(0, 3) == code && l[3] == ' '`. -/
def is_terminator (code l : List Char) : Bool :=
  decide (4 ≤ l.length) && (l.take 3 == code) && (l[3]? == some ' ')

/-- The `while (true)` loop of `read_response` for a multi-line reply.  The
loop runs once per line read; a line that is not empty uses up at least one
read result, so the number of read results left bounds the iterations and is
passed as the first argument (with none left, `read_line` returns the empty
line and the loop stops, which is what the `0` case returns). -/
def read_response_loop (code : List Char) :
    Nat → List (Option Char) → List (List Char) → List (List Char) × List (Option Char)
  | 0, rx, lines => (lines, rx)
  | n + 1, rx, lines =>
    let r := read_line rx
    if r.1 = [] then (lines, r.2)
    else if is_terminator code r.1 then (lines ++ [r.1], r.2)
    else read_response_loop code n r.2 (lines ++ [r.1])

/-- Function `read_response(sockfd)` on the read results of the socket. -/
def read_response (rx : List (Option Char)) : List (List Char) × List (Option Char) :=
  let r := read_line rx
  if r.1 = [] then ([], r.2)
  else if 4 ≤ r.1.length ∧ r.1[3]? = some '-' then
    read_response_loop (r.1.take 3) r.2.length r.2 [r.1]
  else ([r.1], r.2)

/-! ## Passive-mode reply text -/

/-- C `isspace` in the "C" locale. -/
def isspace (c : Char) : Bool :=
  c = ' ' || c = '\t' || c = '\n' || c = '\x0b' || c = '\x0c' || c = '\r'

/-- C `isdigit`. -/
def isdigit (c : Char) : Bool := decide (48 ≤ c.toNat) && decide (c.toNat ≤ 57)

/-- The digit loop of a `%d` conversion: consumes the longest run of digits. -/
def scan_digits : List Char → Nat → Nat × List Char
  | [], acc => (acc, [])
  | c :: cs, acc =>
    if isdigit c then scan_digits cs (acc * 10 + (c.toNat - 48)) else (acc, c :: cs)

/-- The value of an `int` (32 bits, two's complement) whose low 32 bits are
those of `v`: what a conversion to `int` or an overflowing `int` operation
yields. -/
def wrap_int (v : Int) : Int := (v + 2 ^ 31) % 2 ^ 32 - 2 ^ 31

/-- What `%d` stores for the number `v` it has read: the C library converts
the digits as a `long` (64 bits), saturating at `LONG_MIN` and `LONG_MAX`, and
stores the result in the `int` by conversion.  (For a number that does not
fit in `int` the C standard leaves the result open; this is what the GNU C
library does.) -/
def store_int (v : Int) : Int := wrap_int (max (-(2 ^ 63)) (min v (2 ^ 63 - 1)))

/-- One `%d` conversion of `sscanf`: skips white space, takes an optional sign
and then at least one digit.  `none` is a failed conversion; otherwise the
`int` stored and the text left. -/
def scan_int (s : List Char) : Option (Int × List Char) :=
  let s1 := s.dropWhile isspace
  let neg : Bool := s1.head? = some '-'
  let s2 := if s1.head? = some '-' ∨ s1.head? = some '+' then s1.drop 1 else s1
  match s2 with
  | [] => none
  | c :: _ =>
    if isdigit c then
      let r := scan_digits s2 0
      some (store_int (if neg then -(r.1 : Int) else (r.1 : Int)), r.2)
    else none

/-- The conversions of `sscanf(s, "%d,%d,...")` with `k` conversions left: the
values assigned, in order.  After a conversion the literal `,` of the format
has to match the next character. -/
def scan_ints : Nat → List Char → List Int
  | 0, _ => []
  | k + 1, s =>
    match scan_int s with
    | none => []
    | some (v, r) =>
      v :: (if k = 0 then [] else
        match r with
        | ',' :: r1 => scan_ints k r1
        | _ => [])

/-- The characters `c_str()` shows to a C function: those before the first NUL. -/
def c_str (s : List Char) : List Char := s.takeWhile (fun c => c ≠ '\x00')

/-- Output conversion `%d` of a value: decimal digits, with a leading `-` when negative. -/
def fmt_d (v : Int) : List Char :=
  if v < 0 then '-' :: Nat.toDigits 10 v.natAbs else Nat.toDigits 10 v.natAbs

/-- Function `str.find(ch)`: index of the first occurrence, `none` for `npos`. -/
def find (str : List Char) (ch : Char) : Option Nat :=
  if ch ∈ str then some (str.indexOf ch) else none

/-- Function `str.substr(pos, n)` for `pos <= str.size()`. -/
def substr (str : List Char) (pos n : Nat) : List Char := (str.drop pos).take n

/-- Function `parse_pasv_response(str, ip, port)`: the result and the values of the two
output parameters after the call.  `end - start - 1` is computed in `size_t`
(64 bits), `p1 * 256 + p2` in `int` (32 bits). -/
def parse_pasv_response (str ip : List Char) (port : Int) : Bool × List Char × Int :=
  match find str '(', find str ')' with
  | some start, some end_ =>
    let inside := substr str (start + 1) ((end_ + 2 ^ 64 - start - 1) % 2 ^ 64)
    match scan_ints 6 (c_str inside) with
    | [h1, h2, h3, h4, p1, p2] =>
      let buf := (fmt_d h1 ++ '.' :: fmt_d h2 ++ '.' :: fmt_d h3 ++ '.' :: fmt_d h4).take 63
      (true, buf, wrap_int (p1 * 256 + p2))
    | _ => (false, ip, port)
  | _, _ => (false, ip, port)

/-! ## The outside world -/

/-- What the remote end and the network do on one connection. -/
structure Peer where
  /-- Results of the coming one-byte `read` calls. -/
  rx : List (Option Char)
  /-- Results of the coming block `read` calls. -/
  blocks : List (List Char)
  /-- Results of the coming `write` calls whose result is inspected. -/
  wr : List Int
deriving DecidableEq, Repr

/-- What the program does to the outside, in order. -/
inductive Event where
  /-- Function `connect_to_server(host, port)` returned `fd` (`-1` on failure). -/
  | connect (host : List Char) (port : Int) (fd : Int)
  /-- Function `send_cmd` handed `data` to `write` on `fd`. -/
  | send (fd : Int) (data : List Char)
  /-- The upload loop wrote `data` to `fd` (the bytes `write` accepted). -/
  | write (fd : Int) (data : List Char)
  /-- Function `close(fd)`. -/
  | close (fd : Int)
  /-- Function `fopen(name, mode)`, with whether it returned a stream. -/
  | fopen (name : List Char) (mode : List Char) (ok : Bool)
  /-- Function `fclose` of the stream opened on `name`. -/
  | fclose (name : List Char)
deriving DecidableEq, Repr

/-- The network, the local files and the terminal. -/
structure World where
  /-- Outcomes of the coming `connect_to_server` calls: `none` when no
  candidate address connects (or the name does not resolve). -/
  peers : List (Option Peer)
  /-- The descriptor table: descriptor `n` is entry `n`. -/
  socks : List Peer
  /-- Outcomes of the coming `fopen` calls: `none` when it returns NULL,
  otherwise the results of the coming `fread` calls on the stream. -/
  fopens : List (Option (List (List Char)))
  /-- Contents written to local files, by name. -/
  files : List (List Char × List Char)
  /-- Everything written to `std::cout`. -/
  out : List Char
  /-- Everything done to the outside so far. -/
  log : List Event
deriving DecidableEq, Repr

/-- The connection behind a descriptor, if it is one. -/
def World.sock (w : World) (fd : Int) : Option Peer :=
  if fd < 0 then none else w.socks[fd.toNat]?

/-- Replaces the connection behind a descriptor. -/
def World.setSock (w : World) (fd : Int) (p : Peer) : World :=
  { w with socks := w.socks.set fd.toNat p }

/-- Appends to the log. -/
def World.emit (w : World) (e : Event) : World :=
  { w with log := w.log ++ [e] }

/-- Function `read_response(sockfd)` in the world: on a descriptor that is not a
connection every `read` fails, which gives the empty reply. -/
def recv_response (w : World) (sockfd : Int) : List (List Char) × World :=
  match w.sock sockfd with
  | none => ([], w)
  | some p =>
    let r := read_response p.rx
    (r.1, w.setSock sockfd { p with rx := r.2 })

/-- Function `send_cmd(sockfd, cmd)`: one `write` of `cmd + "\r\n"`, result ignored. -/
def send_cmd (w : World) (sockfd : Int) (cmd : List Char) : World :=
  w.emit (.send sockfd (cmd ++ ['\r', '\n']))

/-- Function `connect_to_server(hostname, port)`: name resolution and the loop over the
candidate addresses are the world's; the result is a fresh descriptor or `-1`. -/
def connect_to_server (w : World) (hostname : List Char) (port : Int) : Int × World :=
  match w.peers with
  | [] => (-1, w.emit (.connect hostname port (-1)))
  | none :: ps => (-1, { w with peers := ps }.emit (.connect hostname port (-1)))
  | some p :: ps =>
    (w.socks.length,
      { w with peers := ps, socks := w.socks ++ [p] }.emit (.connect hostname port w.socks.length))

/-- Function `close(fd)`. -/
def close (w : World) (fd : Int) : World := w.emit (.close fd)

/-! ## Session controller -/

/-- The fields of `FTPClient`. -/
structure FTPClient where
  ctrl_sock : Int
  logged_in : Bool
  connected_host : List Char
  current_type : Char
deriving DecidableEq, Repr

/-- The constructor `FTPClient()`, with the default member initialiser of
`current_type`. -/
def FTPClient.new : FTPClient :=
  { ctrl_sock := -1, logged_in := false, connected_host := [], current_type := 'I' }

/-- The test `!lines.empty() && lines[0].compare(0, 3, code) == 0`. -/
def has_code (lines : List (List Char)) (code : List Char) : Bool :=
  match lines with
  | [] => false
  | l :: _ => l.take 3 == code

/-- Function `FTPClient::connect_to_host(host, port)`. -/
def connect_to_host (c : FTPClient) (w : World) (host : List Char) (port : Int) :
    Bool × FTPClient × World :=
  let r := connect_to_server w host port
  let c1 := { c with ctrl_sock := r.1 }
  if r.1 < 0 then (false, c1, r.2)
  else
    let g := recv_response r.2 r.1
    if !has_code g.1 "220".toList then (false, c1, g.2)
    else (true, { c1 with connected_host := host }, g.2)

/-- Function `FTPClient::login(user, pass)`. -/
def login (c : FTPClient) (w : World) (user pass : List Char) : Bool × FTPClient × World :=
  if c.ctrl_sock < 0 then (false, c, w)
  else
    let w1 := send_cmd w c.ctrl_sock ("USER ".toList ++ user)
    let r1 := recv_response w1 c.ctrl_sock
    if !has_code r1.1 "331".toList && !has_code r1.1 "230".toList then (false, c, r1.2)
    else if !has_code r1.1 "230".toList then
      let w2 := send_cmd r1.2 c.ctrl_sock ("PASS ".toList ++ pass)
      let r2 := recv_response w2 c.ctrl_sock
      if !has_code r2.1 "230".toList then (false, c, r2.2)
      else (true, { c with logged_in := true }, r2.2)
    else (true, { c with logged_in := true }, r1.2)

/-- Function `FTPClient::logout()`. -/
def logout (c : FTPClient) (w : World) : Bool × FTPClient × World :=
  if c.ctrl_sock < 0 then (true, c, w)
  else
    let w1 := send_cmd w c.ctrl_sock "QUIT".toList
    let r := recv_response w1 c.ctrl_sock
    if has_code r.1 "221".toList then
      (true, { c with logged_in := false, ctrl_sock := -1 }, close r.2 c.ctrl_sock)
    else (false, c, r.2)

/-- Function `FTPClient::set_type(t)`. -/
def set_type (c : FTPClient) (w : World) (t : Char) : Bool × FTPClient × World :=
  if c.ctrl_sock < 0 then (false, c, w)
  else
    let w1 := send_cmd w c.ctrl_sock ("TYPE ".toList ++ [t])
    let r := recv_response w1 c.ctrl_sock
    if !has_code r.1 "200".toList then (false, c, r.2)
    else (true, { c with current_type := t }, r.2)

/-- Function `FTPClient::ensure_logged_in()`. -/
def ensure_logged_in (c : FTPClient) : Bool := c.logged_in

/-- Function `FTPClient::enter_passive_mode(data_ip, data_port)`: the result, the two
output parameters after the call, and the world. -/
def enter_passive_mode (c : FTPClient) (w : World) (data_ip : List Char) (data_port : Int) :
    Bool × List Char × Int × World :=
  let w1 := send_cmd w c.ctrl_sock "PASV".toList
  let r := recv_response w1 c.ctrl_sock
  match r.1 with
  | [] => (false, data_ip, data_port, r.2)
  | l :: _ =>
    if l.take 3 ≠ "227".toList then (false, data_ip, data_port, r.2)
    else
      let p := parse_pasv_response l data_ip data_port
      (p.1, p.2.1, p.2.2, r.2)

/-- The loop `while ((n = read(data_sock, buffer, sizeof(buffer) - 1)) > 0)` of
`list_files` on the coming block-read results: what goes to `std::cout`
(`buffer` is printed as a C string, so each block up to its first NUL), and
the read results left. -/
def list_loop : List (List Char) → List Char → List Char × List (List Char)
  | [], out => (out, [])
  | b :: bs, out => if b = [] then (out, bs) else list_loop bs (out ++ c_str b)

/-- The loop `while ((n = read(data_sock, buffer, sizeof(buffer))) > 0)` of
`download_file`: what `fwrite` appends to the file, and the read results left. -/
def download_loop : List (List Char) → List Char → List Char × List (List Char)
  | [], file => (file, [])
  | b :: bs, file => if b = [] then (file, bs) else download_loop bs (file ++ b)

/-- The inner loop `while (nwritten < (ssize_t)nread)` of `upload_file` for the
part `pending` of the buffer not yet written, on the coming `write` results:
whether every byte went out, the bytes accepted, and the results left. -/
def write_all : List Int → List Char → Bool × List Char × List Int
  | [], pending => (true, pending, [])
  | r :: rs, pending =>
    if pending = [] then (true, [], r :: rs)
    else if r ≤ 0 then (false, [], rs)
    else
      let t := write_all rs (pending.drop r.toNat)
      (t.1, pending.take r.toNat ++ t.2.1, t.2.2)

/-- The loop `while ((nread = fread(...)) > 0)` of `upload_file` on the coming
`fread` results: whether no write failed, the bytes accepted by the data
socket, and the `write` results left. -/
def upload_loop : List (List Char) → List Int → Bool × List Char × List Int
  | [], wr => (true, [], wr)
  | b :: bs, wr =>
    if b = [] then (true, [], wr)
    else
      let t := write_all wr b
      if !t.1 then (false, t.2.1, t.2.2)
      else
        let u := upload_loop bs t.2.2
        (u.1, t.2.1 ++ u.2.1, u.2.2)

/-- The test on the reply that opens a transfer: status `150` or `125`. -/
def opening_ok (lines : List (List Char)) : Bool :=
  has_code lines "150".toList || has_code lines "125".toList

/-- The read loop of `list_files` in the world: the blocks read from the data
socket go to `std::cout`. -/
def list_transfer (w : World) (data_sock : Int) : World :=
  match w.sock data_sock with
  | none => w
  | some p =>
    let t := list_loop p.blocks w.out
    { w.setSock data_sock { p with blocks := t.2 } with out := t.1 }

/-- Function `FTPClient::list_files()`. -/
def list_files (c : FTPClient) (w : World) : Bool × FTPClient × World :=
  if !ensure_logged_in c then (false, c, w)
  else
    let pm := enter_passive_mode c w [] 0
    if !pm.1 then (false, c, pm.2.2.2)
    else
      let cs := connect_to_server pm.2.2.2 pm.2.1 pm.2.2.1
      if cs.1 < 0 then (false, c, cs.2)
      else
        let w1 := send_cmd cs.2 c.ctrl_sock "LIST".toList
        let r := recv_response w1 c.ctrl_sock
        if !opening_ok r.1 then (false, c, close r.2 cs.1)
        else
          let w2 := list_transfer r.2 cs.1
          let w3 := close w2 cs.1
          let f := recv_response w3 c.ctrl_sock
          if !has_code f.1 "226".toList then (false, c, f.2)
          else (true, c, f.2)

/-- Replaces the content recorded for a local file. -/
def World.setFile (w : World) (name content : List Char) : World :=
  { w with files := (name, content) :: w.files.filter (fun f => f.1 ≠ name) }

/-- The content recorded for a local file. -/
def World.file (w : World) (name : List Char) : Option (List Char) :=
  (w.files.find? (fun f => f.1 = name)).map Prod.snd

/-- Function `fopen(name, mode)`: the stream (the coming `fread` results) or `none`. -/
def fopen (w : World) (name mode : List Char) : Option (List (List Char)) × World :=
  match w.fopens with
  | [] => (none, w.emit (.fopen name mode false))
  | none :: fs => (none, { w with fopens := fs }.emit (.fopen name mode false))
  | some s :: fs => (some s, { w with fopens := fs }.emit (.fopen name mode true))

/-- The read loop of `download_file` in the world: the file just opened with
mode `wb` starts empty and receives the blocks read from the data socket. -/
def download_transfer (w : World) (data_sock : Int) (local_filename : List Char) : World :=
  match w.sock data_sock with
  | none => w.setFile local_filename []
  | some p =>
    let t := download_loop p.blocks []
    (w.setSock data_sock { p with blocks := t.2 }).setFile local_filename t.1

/-- The two nested loops of `upload_file` on the data socket, on the `fread`
results `src`: whether no `write` failed, the bytes the socket accepted, and
the `write` results left.  On a descriptor that is not a connection `write`
fails. -/
def upload_result (w : World) (data_sock : Int) (src : List (List Char)) :
    Bool × List Char × List Int :=
  match w.sock data_sock with
  | none => upload_loop src [-1]
  | some p => upload_loop src p.wr

/-- The two nested loops of `upload_file` in the world: whether no `write`
failed, and the world after, with the bytes the data socket accepted logged. -/
def upload_transfer (w : World) (data_sock : Int) (src : List (List Char)) : Bool × World :=
  let u := upload_result w data_sock src
  let w1 := match w.sock data_sock with
    | none => w
    | some p => w.setSock data_sock { p with wr := u.2.2 }
  (u.1, w1.emit (.write data_sock u.2.1))

/-- Function `FTPClient::download_file(remote_filename, local_filename)`. -/
def download_file (c : FTPClient) (w : World) (remote_filename local_filename : List Char) :
    Bool × FTPClient × World :=
  if !ensure_logged_in c then (false, c, w)
  else
    let st := set_type c w c.current_type
    if !st.1 then (false, st.2.1, st.2.2)
    else
      let c1 := st.2.1
      let pm := enter_passive_mode c1 st.2.2 [] 0
      if !pm.1 then (false, c1, pm.2.2.2)
      else
        let cs := connect_to_server pm.2.2.2 pm.2.1 pm.2.2.1
        if cs.1 < 0 then (false, c1, cs.2)
        else
          let w1 := send_cmd cs.2 c1.ctrl_sock ("RETR ".toList ++ remote_filename)
          let r := recv_response w1 c1.ctrl_sock
          if !opening_ok r.1 then (false, c1, close r.2 cs.1)
          else
            let fo := fopen r.2 local_filename "wb".toList
            match fo.1 with
            | none => (false, c1, close fo.2 cs.1)
            | some _ =>
              let w2 := download_transfer fo.2 cs.1 local_filename
              let w3 := close (w2.emit (.fclose local_filename)) cs.1
              let f := recv_response w3 c1.ctrl_sock
              if !has_code f.1 "226".toList then (false, c1, f.2)
              else (true, c1, f.2)

/-- Function `FTPClient::upload_file(local_filename, remote_filename)`. -/
def upload_file (c : FTPClient) (w : World) (local_filename remote_filename : List Char) :
    Bool × FTPClient × World :=
  if !ensure_logged_in c then (false, c, w)
  else
    let st := set_type c w c.current_type
    if !st.1 then (false, st.2.1, st.2.2)
    else
      let c1 := st.2.1
      let pm := enter_passive_mode c1 st.2.2 [] 0
      if !pm.1 then (false, c1, pm.2.2.2)
      else
        let cs := connect_to_server pm.2.2.2 pm.2.1 pm.2.2.1
        if cs.1 < 0 then (false, c1, cs.2)
        else
          let w1 := send_cmd cs.2 c1.ctrl_sock ("STOR ".toList ++ remote_filename)
          let r := recv_response w1 c1.ctrl_sock
          if !opening_ok r.1 then (false, c1, close r.2 cs.1)
          else
            let fo := fopen r.2 local_filename "rb".toList
            match fo.1 with
            | none => (false, c1, close fo.2 cs.1)
            | some src =>
              let u := upload_transfer fo.2 cs.1 src
              let w3 := close (u.2.emit (.fclose local_filename)) cs.1
              if !u.1 then (false, c1, w3)
              else
                let f := recv_response w3 c1.ctrl_sock
                if !has_code f.1 "226".toList then (false, c1, f.2)
                else (true, c1, f.2)

/-! ## Vocabulary of the statements -/

/-- A line as it travels: no linefeed, and every carriage return is followed
by a character that is neither a carriage return nor a linefeed. -/
def plain_line : List Char → Bool
  | [] => true
  | [c] => c ≠ '\r' && c ≠ '\n'
  | c :: d :: t => c ≠ '\n' && (c ≠ '\r' || (d ≠ '\r' && d ≠ '\n')) && plain_line (d :: t)

/-- The bytes of a sequence of lines on the wire, each line followed by CR LF,
as results of one-byte reads. -/
def wire : List (List Char) → List (Option Char)
  | [] => []
  | l :: ls => l.map some ++ some '\r' :: some '\n' :: wire ls

/-- The decimal numeral of a natural number. -/
def decimal (n : Nat) : List Char := (toString n).toList

/-- An integer as `%d` reads it: optional white space, an optional sign, and
one or more decimal digits. -/
def int_token (t : List Char) : Prop :=
  ∃ ws sg ds : List Char, t = ws ++ sg ++ ds ∧ (∀ c ∈ ws, isspace c = true) ∧
    (sg = [] ∨ sg = ['-'] ∨ sg = ['+']) ∧ ds ≠ [] ∧ ∀ c ∈ ds, isdigit c = true

/-- The text begins with six integers separated by commas. -/
def six_integers (g : List Char) : Prop :=
  ∃ t1 t2 t3 t4 t5 t6 rest : List Char,
    int_token t1 ∧ int_token t2 ∧ int_token t3 ∧ int_token t4 ∧ int_token t5 ∧ int_token t6 ∧
    g = t1 ++ ',' :: (t2 ++ ',' :: (t3 ++ ',' :: (t4 ++ ',' :: (t5 ++ ',' :: (t6 ++ rest)))))

/-- The session invariant of the specification: authenticated implies that
the session holds a control connection. -/
def session_invariant (c : FTPClient) : Prop := c.logged_in = true → 0 ≤ c.ctrl_sock

/-- What an operation did to the outside: the part of the log it appended,
given the world before and the world after. -/
def events_of (before after : World) : List Event := after.log.drop before.log.length

/-- In a stretch of the log, every connection opened in it is closed exactly
once in it, and nothing else is closed. -/
def closes_what_it_opens (evs : List Event) : Prop :=
  (∀ fd host port, 0 ≤ fd → Event.connect host port fd ∈ evs →
    evs.count (Event.close fd) = 1) ∧
  (∀ fd, Event.close fd ∈ evs → ∃ host port, Event.connect host port fd ∈ evs)

/-- The three calls of the end-to-end scenario from a fresh session, in
order: `connect_to_host`, `login`, `download_file`, each with its result. -/
def connect_login_download (w : World) (host user pass remote lcl : List Char) (port : Int) :
    (Bool × FTPClient × World) × (Bool × FTPClient × World) × (Bool × FTPClient × World) :=
  let s1 := connect_to_host FTPClient.new w host port
  let s2 := login s1.2.1 s1.2.2 user pass
  let s3 := download_file s2.2.1 s2.2.2 remote lcl
  (s1, s2, s3)

/-- A fresh session calls `connect_to_host`, `login` and `connect_to_host`
again, each with its result. -/
def connect_login_connect (w : World) (host user pass : List Char) (port : Int) :
    (Bool × FTPClient × World) × (Bool × FTPClient × World) × (Bool × FTPClient × World) :=
  let s1 := connect_to_host FTPClient.new w host port
  let s2 := login s1.2.1 s1.2.2 user pass
  let s3 := connect_to_host s2.2.1 s2.2.2 host port
  (s1, s2, s3)

/-- The read results left after `n` calls of `read_line`. -/
def skip_lines : Nat → List (Option Char) → List (Option Char)
  | 0, rx => rx
  | n + 1, rx => skip_lines n (read_line rx).2

/-- The line that call number `n` of `read_line` returns, counting from 0. -/
def nth_line (rx : List (Option Char)) (n : Nat) : List Char :=
  (read_line (skip_lines n rx)).1

/-- A fresh session calls `connect_to_host`, `login` and `list_files`, each
with its result. -/
def connect_login_list (w : World) (host user pass : List Char) (port : Int) :
    (Bool × FTPClient × World) × (Bool × FTPClient × World) × (Bool × FTPClient × World) :=
  let s1 := connect_to_host FTPClient.new w host port
  let s2 := login s1.2.1 s1.2.2 user pass
  let s3 := list_files s2.2.1 s2.2.2
  (s1, s2, s3)

/-- The bytes `fread` delivers before it first returns 0, given the results
of the successive `fread` calls. -/
def source_bytes : List (List Char) → List Char
  | [] => []
  | b :: bs => if b = [] then [] else b ++ source_bytes bs

/-- What the write loops of `upload_file` do with the bytes `data` on the
`write` results `wr`, for a result (success, bytes accepted, results left).
The results used are the initial part of `wr`, one per `write` call.  On
success each of them is at least 1, exactly `data` was accepted, there were
at most as many calls as bytes (each call accepted at least one byte) and,
unless the results ran out, the results used add up to at least the number
of bytes (no call accepted more than it reported).  On failure the last
result used is zero or an error and the earlier ones are at least 1, and the
bytes accepted are an initial part of `data` that leaves some of it out, at
least one byte per earlier call and at most what the earlier calls reported. -/
def write_outcome (wr : List Int) (data : List Char) (res : Bool × List Char × List Int) :
    Prop :=
  ∃ used : List Int, wr = used ++ res.2.2 ∧
    (res.1 = true → (∀ r ∈ used, 1 ≤ r) ∧ res.2.1 = data ∧ used.length ≤ data.length ∧
      (res.2.2 ≠ [] → data.length ≤ (used.map Int.toNat).sum)) ∧
    (res.1 = false → ∃ good r, used = good ++ [r] ∧ r ≤ 0 ∧ (∀ g ∈ good, 1 ≤ g) ∧
      (∃ sfx, sfx ≠ [] ∧ data = res.2.1 ++ sfx) ∧
      good.length ≤ res.2.1.length ∧ res.2.1.length ≤ (good.map Int.toNat).sum)

/-! ## Reply reader: lines -/

theorem plain_line_tail (c : Char) (t : List Char) (h : plain_line (c :: t) = true) :
    plain_line t = true := by
  cases t with
  | nil => rfl
  | cons d t => simp [plain_line] at h; exact h.2

theorem plain_line_head (c : Char) (t : List Char) (h : plain_line (c :: t) = true) :
    c ≠ '\n' := by
  cases t with
  | nil => simp [plain_line] at h; exact h.2
  | cons d t => simp [plain_line] at h; exact h.1.1

theorem read_line_loop_plain (rest : List (Option Char)) :
    ∀ (l acc : List Char) (cr : Bool), plain_line l = true →
      (cr = true → ∃ d t, l = d :: t ∧ d ≠ '\r') →
      read_line_loop (l.map some ++ some '\r' :: some '\n' :: rest) acc cr
        = ((if cr then acc ++ ['\r'] else acc) ++ l, rest) := by
  intro l
  induction l with
  | nil =>
    intro acc cr _ hcr
    cases cr with
    | true => obtain ⟨d, t, h, _⟩ := hcr rfl; cases h
    | false => simp [read_line_loop]
  | cons c t ih =>
    intro acc cr hp hcr
    have hlf := plain_line_head c t hp
    have ht := plain_line_tail c t hp
    by_cases hc : c = '\r'
    · subst hc
      have hcrf : cr = false := by
        cases cr with
        | false => rfl
        | true => obtain ⟨d, t', h, hd⟩ := hcr rfl; cases h; exact absurd rfl hd
      subst hcrf
      have hnext : ∃ d t', t = d :: t' ∧ d ≠ '\r' := by
        cases t with
        | nil => simp [plain_line] at hp
        | cons d t' => simp [plain_line] at hp; exact ⟨d, t', rfl, hp.1.1⟩
      have := ih acc true ht (fun _ => hnext)
      simp [read_line_loop, this]
    · have := ih ((if cr then acc ++ ['\r'] else acc) ++ [c]) false ht (by simp)
      simp [read_line_loop, hc, hlf, this]

/-- A plain line followed by CR LF is read back unchanged, and reading stops
right after the LF. -/
theorem read_line_plain (l : List Char) (rest : List (Option Char)) (h : plain_line l = true) :
    read_line (l.map some ++ some '\r' :: some '\n' :: rest) = (l, rest) := by
  have := read_line_loop_plain rest l [] false h (by simp)
  simpa [read_line] using this

/-- The loop of a multi-line reply on plain, non-empty lines none of which is
a terminator, followed by a terminator line. -/
theorem read_response_loop_lines (code term : List Char) (further : List (Option Char))
    (hterm : plain_line term = true) (htt : is_terminator code term = true) :
    ∀ (mids acc : List (List Char)) (fuel : Nat), mids.length < fuel →
      (∀ m ∈ mids, m ≠ [] ∧ plain_line m = true ∧ is_terminator code m = false) →
      read_response_loop code fuel (wire (mids ++ [term]) ++ further) acc
        = (acc ++ mids ++ [term], further) := by
  have hne : term ≠ [] := by
    intro h; subst h; simp [is_terminator] at htt
  intro mids
  induction mids with
  | nil =>
    intro acc fuel hf _
    obtain ⟨n, rfl⟩ : ∃ n, fuel = n + 1 := ⟨fuel - 1, by simp at hf; omega⟩
    simp [wire, read_response_loop, read_line_plain term _ hterm, hne, htt]
  | cons m ms ih =>
    intro acc fuel hf hm
    obtain ⟨n, rfl⟩ : ∃ n, fuel = n + 1 := ⟨fuel - 1, by simp at hf; omega⟩
    have h1 := hm m (by simp)
    have h2 := ih (acc ++ [m]) n (by simp at hf; omega) (fun x hx => hm x (by simp [hx]))
    simp [wire, read_response_loop, read_line_plain m _ h1.2.1, h1.1, h1.2.2, h2]

theorem wire_length (ls : List (List Char)) : ls.length ≤ (wire ls).length := by
  induction ls with
  | nil => simp [wire]
  | cons l ls ih => simp [wire]; omega

/-- The loop of a multi-line reply on plain, non-empty lines none of which is
a terminator, followed by an empty line. -/
theorem read_response_loop_blank (code : List Char) (further : List (Option Char)) :
    ∀ (mids acc : List (List Char)) (fuel : Nat), mids.length < fuel →
      (∀ m ∈ mids, m ≠ [] ∧ plain_line m = true ∧ is_terminator code m = false) →
      read_response_loop code fuel (wire (mids ++ [[]]) ++ further) acc
        = (acc ++ mids, further) := by
  intro mids
  induction mids with
  | nil =>
    intro acc fuel hf _
    obtain ⟨n, rfl⟩ : ∃ n, fuel = n + 1 := ⟨fuel - 1, by simp at hf; omega⟩
    have := read_line_plain [] further rfl
    simp only [List.map_nil, List.nil_append] at this
    simp [wire, read_response_loop, this]
  | cons m ms ih =>
    intro acc fuel hf hm
    obtain ⟨n, rfl⟩ : ∃ n, fuel = n + 1 := ⟨fuel - 1, by simp at hf; omega⟩
    have h1 := hm m (by simp)
    have h2 := ih (acc ++ [m]) n (by simp at hf; omega) (fun x hx => hm x (by simp [hx]))
    simp [wire, read_response_loop, read_line_plain m _ h1.2.1, h1.1, h1.2.2, h2]

/-- C1 (as amended): for every three-character code, every plain opening line
`code-...` and every list of plain, non-empty intermediate lines none of which
is a terminator: on the stream that holds the opening line, the intermediate
lines and then a plain terminator line, each followed by CR LF, and then
arbitrary further read results, `read_response` returns exactly the opening
line, the intermediate lines in order and the terminator line, and leaves the
further read results unread; and on the stream that holds an empty line (CR
LF alone) in the place of the terminator line, `read_response` returns the
opening line and the intermediate lines, and leaves unread what follows the
empty line. -/
theorem read_response_multiline (code tail : List Char) (mids : List (List Char))
    (further : List (Option Char)) (hcode : code.length = 3)
    (hopen : plain_line (code ++ '-' :: tail) = true)
    (hmids : ∀ m ∈ mids, m ≠ [] ∧ plain_line m = true ∧ is_terminator code m = false) :
    (∀ term : List Char, plain_line term = true → is_terminator code term = true →
      read_response (wire ((code ++ '-' :: tail) :: mids ++ [term]) ++ further)
        = ((code ++ '-' :: tail) :: mids ++ [term], further)) ∧
    read_response (wire ((code ++ '-' :: tail) :: mids ++ [[]]) ++ further)
      = ((code ++ '-' :: tail) :: mids, further) := by
  have h3 : (code ++ '-' :: tail)[3]? = some '-' := by
    rw [List.getElem?_append_right (by omega)]
    simp [hcode]
  have htake : (code ++ '-' :: tail).take 3 = code := by
    rw [List.take_append_of_le_length (by omega), List.take_of_length_le (by omega)]
  have hl4 : 4 ≤ (code ++ '-' :: tail).length := by simp; omega
  have hw : ∀ last : List Char,
      wire ((code ++ '-' :: tail) :: mids ++ [last]) ++ further
        = (code ++ '-' :: tail).map some ++ some '\r' :: some '\n' ::
          (wire (mids ++ [last]) ++ further) := by
    intro last
    simp [wire]
  have hlen : ∀ last : List Char, mids.length < (wire (mids ++ [last]) ++ further).length := by
    intro last
    have := wire_length (mids ++ [last])
    simp at this ⊢
    omega
  constructor
  · intro term hterm htt
    have hloop := read_response_loop_lines code term further hterm htt mids
      [code ++ '-' :: tail] _ (hlen term) hmids
    rw [hw term]
    unfold read_response
    rw [read_line_plain _ _ hopen]
    simp only [htake]
    rw [if_neg (by simp), if_pos ⟨hl4, h3⟩, hloop]
    simp
  · have hloop := read_response_loop_blank code further mids
      [code ++ '-' :: tail] _ (hlen []) hmids
    rw [hw []]
    unfold read_response
    rw [read_line_plain _ _ hopen]
    simp only [htake]
    rw [if_neg (by simp), if_pos ⟨hl4, h3⟩, hloop]
    simp

theorem read_response_multiline_witness :
    read_response (wire ["226-Part1".toList, "226-Part2".toList, "226 Done".toList]
        ++ [some 'X', none])
      = (["226-Part1".toList, "226-Part2".toList, "226 Done".toList], [some 'X', none]) :=
  (read_response_multiline "226".toList "Part1".toList ["226-Part2".toList]
    [some 'X', none] (by decide) (by decide) (by decide)).1 "226 Done".toList
    (by decide) (by decide)

/-- C1 (as stated) fails on lines that are empty or not plain.  On a blank
intermediate line `read_response` stops, returns the opening line alone and
leaves the terminator line unread; an intermediate line holding a linefeed
comes back as two lines; of two carriage returns in a row inside an
intermediate line one is lost; a carriage return that ends an intermediate
line is lost; the same loss changes an opening line; and a terminator line
holding a linefeed is cut there, the rest of it staying unread. -/
theorem read_response_blank_line_stops :
    (is_terminator "226".toList [] = false ∧
      is_terminator "226".toList "226 Done".toList = true ∧
      read_response (wire ["226-Part1".toList, [], "226 Done".toList])
        = (["226-Part1".toList], wire ["226 Done".toList])) ∧
    (is_terminator "226".toList "a\nb".toList = false ∧
      read_response (wire ["226-Part1".toList, "a\nb".toList, "226 Done".toList])
        = (["226-Part1".toList, "a".toList, "b".toList, "226 Done".toList], [])) ∧
    (is_terminator "226".toList "a\r\rb".toList = false ∧
      read_response (wire ["226-Part1".toList, "a\r\rb".toList, "226 Done".toList])
        = (["226-Part1".toList, "a\rb".toList, "226 Done".toList], [])) ∧
    (is_terminator "226".toList "a\r".toList = false ∧
      read_response (wire ["226-Part1".toList, "a\r".toList, "226 Done".toList])
        = (["226-Part1".toList, "a".toList, "226 Done".toList], [])) ∧
    read_response (wire ["226-Pa\r\rrt1".toList, "226 Done".toList])
      = (["226-Pa\rrt1".toList, "226 Done".toList], []) ∧
    (is_terminator "226".toList "226 Do\nne".toList = true ∧
      read_response (wire ["226-Part1".toList, "226 Do\nne".toList])
        = (["226-Part1".toList, "226 Do".toList], wire ["ne".toList])) := by
  decide

/-- C2 (the code at the failing input): of two carriage returns in a row,
neither followed by a linefeed, `read_line` keeps only one. -/
theorem read_line_drops_repeated_cr :
    read_line ("A\r\rB\r\n".toList.map some) = ("A\rB".toList, []) := by
  decide

/-- C10: when the first line read is not empty and its 4th character is not
`-` (which includes lines shorter than four characters), `read_response`
returns exactly that line, and leaves unread exactly what `read_line` left. -/
theorem read_response_single_line (rx : List (Option Char))
    (hne : (read_line rx).1 ≠ []) (h4 : (read_line rx).1[3]? ≠ some '-') :
    read_response rx = ([(read_line rx).1], (read_line rx).2) := by
  unfold read_response
  simp only []
  rw [if_neg hne, if_neg (fun h => h4 h.2)]

theorem read_response_single_line_witness :
    read_response ("220 Ready\r\n331".toList.map some)
      = (["220 Ready".toList], "331".toList.map some) := by
  have h := read_response_single_line ("220 Ready\r\n331".toList.map some)
    (by decide) (by decide)
  rw [h]
  decide

theorem read_line_loop_length : ∀ (rx : List (Option Char)) (line : List Char) (cr : Bool),
    (read_line_loop rx line cr).2.length ≤ rx.length - 1 := by
  intro rx
  induction rx with
  | nil => intro line cr; simp [read_line_loop]
  | cons x rest ih =>
    intro line cr
    cases x with
    | none => simp [read_line_loop]
    | some c =>
      simp only [read_line_loop]
      split_ifs
      all_goals first
        | exact le_trans (ih _ _) (by simp)
        | simp

/-- A line that is not empty has used up at least one read result. -/
theorem read_line_consumes (rx : List (Option Char)) (h : (read_line rx).1 ≠ []) :
    (read_line rx).2.length < rx.length := by
  cases rx with
  | nil => simp [read_line, read_line_loop] at h
  | cons x rest =>
    have := read_line_loop_length (x :: rest) [] false
    simp only [List.length_cons, Nat.add_sub_cancel] at this
    simp only [read_line, List.length_cons]
    omega

/-- The bound passed to the multi-line loop never cuts it short: any bound
that is at least the number of read results left gives the same result. -/
theorem read_response_loop_bound (code : List Char) :
    ∀ (n m : Nat) (rx : List (Option Char)) (lines : List (List Char)),
      rx.length ≤ n → rx.length ≤ m →
      read_response_loop code n rx lines = read_response_loop code m rx lines := by
  intro n
  induction n with
  | zero =>
    intro m rx lines hn _
    have hrx : rx = [] := List.length_eq_zero.1 (by omega)
    subst hrx
    cases m with
    | zero => rfl
    | succ m => simp [read_response_loop, read_line, read_line_loop]
  | succ n ih =>
    intro m rx lines hn hm
    cases m with
    | zero =>
      have hrx : rx = [] := List.length_eq_zero.1 (by omega)
      subst hrx
      simp [read_response_loop, read_line, read_line_loop]
    | succ m =>
      simp only [read_response_loop]
      split_ifs with h1 h2
      · rfl
      · rfl
      · have := read_line_consumes rx h1
        exact ih m _ _ (by omega) (by omega)

/-- A single-line reply on the wire: a plain, non-empty line whose 4th
character is not `-`, followed by CR LF, is returned alone and reading stops
right after the LF. -/
theorem read_response_single_plain (l : List Char) (rest : List (Option Char))
    (hp : plain_line l = true) (hne : l ≠ []) (h4 : l[3]? ≠ some '-') :
    read_response (l.map some ++ some '\r' :: some '\n' :: rest) = ([l], rest) := by
  unfold read_response
  rw [read_line_plain l rest hp]
  simp only []
  rw [if_neg hne, if_neg (fun h => h4 h.2)]

/-! ## Passive-mode reply text -/

theorem decimal_eq (n : Nat) : decimal n = Nat.toDigits 10 n := rfl

theorem digitChar_digit (m : Nat) (h : m < 10) :
    isdigit (Nat.digitChar m) = true ∧ (Nat.digitChar m).toNat - 48 = m := by
  interval_cases m <;> decide

theorem isdigit_not_special (c : Char) (h : isdigit c = true) :
    isspace c = false ∧ c ≠ '-' ∧ c ≠ '+' ∧ c ≠ ',' ∧ c ≠ '(' ∧ c ≠ ')' ∧ c ≠ '\x00' := by
  simp only [isdigit, Bool.and_eq_true, decide_eq_true_eq] at h
  refine ⟨?_, ?_, ?_, ?_, ?_, ?_, ?_⟩
  · simp only [isspace, Bool.or_eq_false_iff, decide_eq_false_iff_not]
    refine ⟨⟨⟨⟨⟨?_, ?_⟩, ?_⟩, ?_⟩, ?_⟩, ?_⟩ <;> (rintro rfl; revert h; decide)
  all_goals (rintro rfl; revert h; decide)

theorem toDigitsCore_acc (f : Nat) : ∀ (n : Nat) (ds : List Char),
    Nat.toDigitsCore 10 f n ds = Nat.toDigitsCore 10 f n [] ++ ds := by
  induction f with
  | zero => intro n ds; simp [Nat.toDigitsCore]
  | succ f ih =>
    intro n ds
    simp only [Nat.toDigitsCore]
    split
    · simp
    · rw [ih (n / 10) (Nat.digitChar (n % 10) :: ds), ih (n / 10) [Nat.digitChar (n % 10)]]
      simp

theorem toDigitsCore_digits (f : Nat) : ∀ (n : Nat) (ds : List Char),
    ∀ c ∈ Nat.toDigitsCore 10 f n ds, isdigit c = true ∨ c ∈ ds := by
  induction f with
  | zero => intro n ds c hc; simp [Nat.toDigitsCore] at hc; exact Or.inr hc
  | succ f ih =>
    intro n ds c hc
    have hd := (digitChar_digit (n % 10) (Nat.mod_lt _ (by decide))).1
    simp only [Nat.toDigitsCore] at hc
    split at hc
    · rcases List.mem_cons.1 hc with h | h
      · exact Or.inl (h ▸ hd)
      · exact Or.inr h
    · rcases ih _ _ c hc with h | h
      · exact Or.inl h
      · rcases List.mem_cons.1 h with h | h
        · exact Or.inl (h ▸ hd)
        · exact Or.inr h

theorem decimal_digits (n : Nat) : ∀ c ∈ decimal n, isdigit c = true := by
  intro c hc
  rcases toDigitsCore_digits _ _ _ c hc with h | h
  · exact h
  · cases h

theorem decimal_ne_nil (n : Nat) : decimal n ≠ [] := by
  rw [decimal_eq]
  unfold Nat.toDigits
  simp only [Nat.toDigitsCore]
  split
  · simp
  · rw [toDigitsCore_acc]; simp

theorem scan_digits_toDigitsCore (f : Nat) : ∀ (n acc : Nat) (ds : List Char), n < f →
    ∃ k, scan_digits (Nat.toDigitsCore 10 f n ds) acc = scan_digits ds (acc * 10 ^ k + n) := by
  induction f with
  | zero => intro n acc ds h; omega
  | succ f ih =>
    intro n acc ds h
    have hd := digitChar_digit (n % 10) (Nat.mod_lt _ (by decide))
    simp only [Nat.toDigitsCore]
    split
    · rename_i h0
      refine ⟨1, ?_⟩
      have hn : n % 10 = n := by omega
      rw [hn] at hd ⊢
      simp only [scan_digits, hd.1, hd.2, if_true, pow_one]
    · rename_i h0
      obtain ⟨k, hk⟩ := ih (n / 10) acc (Nat.digitChar (n % 10) :: ds) (by omega)
      refine ⟨k + 1, ?_⟩
      rw [hk]
      simp only [scan_digits, hd.1, hd.2, if_true]
      congr 1
      have := Nat.div_add_mod n 10
      rw [pow_succ]
      nlinarith [Nat.div_add_mod n 10]

/-- Scanning digits reads a decimal numeral back when what follows it does
not begin with a digit. -/
theorem scan_digits_decimal (n : Nat) (rest : List Char)
    (hrest : ∀ c t, rest = c :: t → isdigit c = false) :
    scan_digits (decimal n ++ rest) 0 = (n, rest) := by
  rw [decimal_eq]
  unfold Nat.toDigits
  rw [← toDigitsCore_acc]
  obtain ⟨k, hk⟩ := scan_digits_toDigitsCore (n + 1) n 0 rest (by omega)
  rw [hk]
  simp only [zero_mul, zero_add]
  cases rest with
  | nil => rfl
  | cons c t => simp [scan_digits, hrest c t rfl]

theorem wrap_int_small (v : Int) (h0 : -(2 ^ 31) ≤ v) (h1 : v < 2 ^ 31) : wrap_int v = v := by
  unfold wrap_int
  rw [Int.emod_eq_of_lt (by omega) (by omega)]
  omega

theorem store_int_small (v : Int) (h0 : -(2 ^ 31) ≤ v) (h1 : v < 2 ^ 31) : store_int v = v := by
  unfold store_int
  rw [min_eq_left (by omega), max_eq_right (by omega)]
  exact wrap_int_small v h0 h1

/-- One `%d` conversion reads a decimal numeral back. -/
theorem scan_int_decimal (n : Nat) (rest : List Char) (hn : n < 2 ^ 31)
    (hrest : ∀ c t, rest = c :: t → isdigit c = false) :
    scan_int (decimal n ++ rest) = some ((n : Int), rest) := by
  obtain ⟨c, t, hct⟩ : ∃ c t, decimal n = c :: t := by
    cases h : decimal n with
    | nil => exact absurd h (decimal_ne_nil n)
    | cons c t => exact ⟨c, t, rfl⟩
  have hc : isdigit c = true := decimal_digits n c (by rw [hct]; simp)
  have hs := isdigit_not_special c hc
  have hsd := scan_digits_decimal n rest hrest
  have hst : store_int (n : Int) = (n : Int) := store_int_small _ (by omega) (by omega)
  rw [hct] at hsd
  simp only [List.cons_append] at hsd
  unfold scan_int
  simp only [hct, List.cons_append, List.dropWhile_cons, hs.1, Bool.false_eq_true, if_false,
    List.head?_cons, Option.some.injEq, hs.2.1, hs.2.2.1, or_self, hc, if_true, hsd,
    decide_False, hst]

theorem decimal_length (n : Nat) (h : n ≤ 255) : (decimal n).length ≤ 3 :=
  Nat.toDigitsCore_length 10 (by decide) (n + 1) n 3 (by norm_num; omega) (by decide)

theorem scan_ints_step (k n : Nat) (r : List Char) (hn : n < 2 ^ 31) :
    scan_ints (k + 2) (decimal n ++ ',' :: r) = (n : Int) :: scan_ints (k + 1) r := by
  have h := scan_int_decimal n (',' :: r) hn (by intro c t h; cases h; decide)
  rw [scan_ints, h]
  simp

theorem scan_ints_last (n : Nat) (rest : List Char) (hn : n < 2 ^ 31)
    (hrest : ∀ c t, rest = c :: t → isdigit c = false) :
    scan_ints 1 (decimal n ++ rest) = [(n : Int)] := by
  rw [scan_ints, scan_int_decimal n rest hn hrest]
  simp

/-- Where `find` sees the parentheses of a group that follows a text without
parentheses. -/
theorem find_group (pre grp post : List Char) (h1 : '(' ∉ pre) (h2 : ')' ∉ pre)
    (h3 : ')' ∉ grp) :
    find (pre ++ '(' :: (grp ++ ')' :: post)) '(' = some pre.length ∧
    find (pre ++ '(' :: (grp ++ ')' :: post)) ')' = some (pre.length + 1 + grp.length) := by
  constructor
  · unfold find
    rw [if_pos (by simp), List.indexOf_append_of_not_mem h1]
    simp
  · unfold find
    rw [if_pos (by simp), List.indexOf_append_of_not_mem h2,
      List.indexOf_cons_ne _ (by decide), List.indexOf_append_of_not_mem h3]
    simp
    omega

/-- What `substr` extracts for such a group: the group, cut to its length
modulo `2 ^ 64`. -/
theorem substr_group (pre grp post : List Char) :
    substr (pre ++ '(' :: (grp ++ ')' :: post)) (pre.length + 1)
        ((pre.length + 1 + grp.length + 2 ^ 64 - pre.length - 1) % 2 ^ 64)
      = grp.take (grp.length % 2 ^ 64) := by
  have e : (pre.length + 1 + grp.length + 2 ^ 64 - pre.length - 1) % 2 ^ 64
      = grp.length % 2 ^ 64 := by
    have : pre.length + 1 + grp.length + 2 ^ 64 - pre.length - 1 = grp.length + 2 ^ 64 := by
      omega
    rw [this, Nat.add_mod_right]
  rw [e]
  unfold substr
  have hd : (pre ++ '(' :: (grp ++ ')' :: post)).drop (pre.length + 1) = grp ++ ')' :: post := by
    have : pre ++ '(' :: (grp ++ ')' :: post) = (pre ++ ['(']) ++ (grp ++ ')' :: post) := by simp
    rw [this, List.drop_append_of_le_length (by simp), List.drop_of_length_le (by simp)]
    simp
  rw [hd, List.take_append_of_le_length (Nat.mod_le _ _)]

theorem c_str_self (s : List Char) (h : '\x00' ∉ s) : c_str s = s := by
  unfold c_str
  rw [List.takeWhile_eq_self_iff]
  intro c hc
  simp only [ne_eq, decide_not, Bool.not_eq_eq_eq_not, Bool.not_true, decide_eq_false_iff_not]
  rintro rfl
  exact h hc

theorem fmt_d_nat (n : Nat) : fmt_d (n : Int) = decimal n := by
  unfold fmt_d
  rw [if_neg (by omega)]
  simp [decimal_eq]

/-- C3: for all `h1 h2 h3 h4 p1 p2` in `0..255` and every text before the
group that contains no parenthesis (and any text after it),
`parse_pasv_response` on `... (h1,h2,h3,h4,p1,p2) ...` succeeds, sets the
address to `h1.h2.h3.h4` in decimal and the port to `p1 * 256 + p2`. -/
theorem parse_pasv_sextet (h1 h2 h3 h4 p1 p2 : Nat) (pre post ip0 : List Char) (port0 : Int)
    (hb : h1 ≤ 255 ∧ h2 ≤ 255 ∧ h3 ≤ 255 ∧ h4 ≤ 255 ∧ p1 ≤ 255 ∧ p2 ≤ 255)
    (hpre : '(' ∉ pre ∧ ')' ∉ pre) :
    parse_pasv_response
        (pre ++ '(' :: ((decimal h1 ++ ',' :: (decimal h2 ++ ',' :: (decimal h3 ++ ',' ::
          (decimal h4 ++ ',' :: (decimal p1 ++ ',' :: decimal p2))))) ++ ')' :: post))
        ip0 port0
      = (true, decimal h1 ++ '.' :: (decimal h2 ++ '.' :: (decimal h3 ++ '.' :: decimal h4)),
          ((p1 * 256 + p2 : Nat) : Int)) := by
  obtain ⟨b1, b2, b3, b4, b5, b6⟩ := hb
  generalize hg : (decimal h1 ++ ',' :: (decimal h2 ++ ',' :: (decimal h3 ++ ',' ::
    (decimal h4 ++ ',' :: (decimal p1 ++ ',' :: decimal p2))))) = grp
  have hmem : ∀ c ∈ grp, isdigit c = true ∨ c = ',' := by
    intro c hc
    subst hg
    simp only [List.mem_append, List.mem_cons] at hc
    rcases hc with h | h | h | h | h | h | h | h | h | h | h
    all_goals first
      | exact Or.inr h
      | exact Or.inl (decimal_digits _ c h)
  have hno : ∀ x : Char, isdigit x = false → x ≠ ',' → x ∉ grp := by
    intro x hx hx2 hmx
    rcases hmem x hmx with h | h
    · rw [hx] at h; cases h
    · exact hx2 h
  have hlen : grp.length < 2 ^ 64 := by
    have l1 := decimal_length h1 b1
    have l2 := decimal_length h2 b2
    have l3 := decimal_length h3 b3
    have l4 := decimal_length h4 b4
    have l5 := decimal_length p1 b5
    have l6 := decimal_length p2 b6
    subst hg
    simp only [List.length_append, List.length_cons]
    omega
  obtain ⟨f1, f2⟩ := find_group pre grp post hpre.1 hpre.2 (hno ')' (by decide) (by decide))
  have hs := substr_group pre grp post
  rw [Nat.mod_eq_of_lt hlen, List.take_length] at hs
  have hc := c_str_self grp (hno '\x00' (by decide) (by decide))
  have hscan : scan_ints 6 grp = [(h1 : Int), h2, h3, h4, p1, p2] := by
    subst hg
    rw [scan_ints_step _ _ _ (by omega), scan_ints_step _ _ _ (by omega),
      scan_ints_step _ _ _ (by omega), scan_ints_step _ _ _ (by omega),
      scan_ints_step _ _ _ (by omega)]
    have := scan_ints_last p2 [] (by omega) (by intro c t h; cases h)
    rw [List.append_nil] at this
    rw [this]
  have htake : (decimal h1 ++ '.' :: (decimal h2 ++ '.' :: (decimal h3 ++ '.' :: decimal h4))).length
      ≤ 63 := by
    have l1 := decimal_length h1 b1
    have l2 := decimal_length h2 b2
    have l3 := decimal_length h3 b3
    have l4 := decimal_length h4 b4
    simp only [List.length_append, List.length_cons]
    omega
  have hport : wrap_int ((p1 : Int) * 256 + (p2 : Int)) = ((p1 * 256 + p2 : Nat) : Int) := by
    rw [wrap_int_small _ (by omega) (by omega)]
    push_cast
    rfl
  unfold parse_pasv_response
  simp only [f1, f2, hs, hc, hscan, fmt_d_nat, hport]
  rw [List.take_of_length_le (by simpa using htake)]
  simp

theorem parse_pasv_sextet_witness :
    parse_pasv_response "227 Entering Passive Mode (127,0,0,1,19,136).".toList [] 0
      = (true, "127.0.0.1".toList, 5000) :=
  parse_pasv_sextet 127 0 0 1 19 136 "227 Entering Passive Mode ".toList ".".toList [] 0
    (by decide) (by decide)

theorem scan_digits_split : ∀ (s : List Char) (acc : Nat),
    ∃ ds, s = ds ++ (scan_digits s acc).2 ∧ (∀ c ∈ ds, isdigit c = true) ∧
      (∀ c t, s = c :: t → isdigit c = true → ds ≠ []) := by
  intro s
  induction s with
  | nil => intro acc; exact ⟨[], by simp [scan_digits]⟩
  | cons c t ih =>
    intro acc
    by_cases hc : isdigit c = true
    · obtain ⟨ds, h1, h2, _⟩ := ih (acc * 10 + (c.toNat - 48))
      refine ⟨c :: ds, ?_, ?_, ?_⟩
      · simp only [scan_digits, hc, if_true, List.cons_append]
        rw [← h1]
      · intro x hx
        rcases List.mem_cons.1 hx with h | h
        · exact h ▸ hc
        · exact h2 x h
      · intro _ _ _ _; simp
    · refine ⟨[], ?_, ?_, ?_⟩
      · simp [scan_digits, hc]
      · simp
      · intro x t' h hx
        cases h
        exact absurd hx hc

/-- A successful `%d` conversion has consumed an integer token. -/
theorem scan_int_token (s r : List Char) (v : Int) (h : scan_int s = some (v, r)) :
    ∃ t, int_token t ∧ s = t ++ r := by
  unfold scan_int at h
  simp only [] at h
  split at h
  · cases h
  · rename_i c t hs2
    split at h
    · rename_i hc
      simp only [Option.some.injEq, Prod.mk.injEq] at h
      obtain ⟨ds, e1, e2, e3⟩ := scan_digits_split
        (if (s.dropWhile isspace).head? = some '-' ∨ (s.dropWhile isspace).head? = some '+'
          then (s.dropWhile isspace).drop 1 else s.dropWhile isspace) 0
      rw [h.2] at e1
      have hds : ds ≠ [] := e3 c t hs2 hc
      have hws : ∀ x ∈ s.takeWhile isspace, isspace x = true :=
        fun x hx => List.mem_takeWhile_imp hx
      have hsplit : s = s.takeWhile isspace ++ s.dropWhile isspace :=
        (List.takeWhile_append_dropWhile isspace s).symm
      by_cases hsg : (s.dropWhile isspace).head? = some '-' ∨
          (s.dropWhile isspace).head? = some '+'
      · rw [if_pos hsg] at e1
        cases hd : s.dropWhile isspace with
        | nil => rw [hd] at hsg; simp at hsg
        | cons x xs =>
          rw [hd] at e1 hsg
          simp only [List.drop_succ_cons, List.drop_zero] at e1
          simp only [List.head?_cons, Option.some.injEq] at hsg
          refine ⟨s.takeWhile isspace ++ [x] ++ ds, ⟨_, [x], ds, rfl, hws, ?_, hds, e2⟩, ?_⟩
          · rcases hsg with h | h
            · exact Or.inr (Or.inl (by rw [h]))
            · exact Or.inr (Or.inr (by rw [h]))
          · conv_lhs => rw [hsplit, hd, e1]
            simp
      · rw [if_neg hsg] at e1
        refine ⟨s.takeWhile isspace ++ [] ++ ds, ⟨_, [], ds, rfl, hws, Or.inl rfl, hds, e2⟩, ?_⟩
        conv_lhs => rw [hsplit, e1]
        simp
    · cases h

theorem scan_ints_full (k : Nat) (s : List Char) (h : (scan_ints (k + 1) s).length = k + 1) :
    ∃ t r, int_token t ∧ s = t ++ r ∧
      (k = 0 ∨ ∃ r1, r = ',' :: r1 ∧ (scan_ints k r1).length = k) := by
  rw [scan_ints] at h
  cases hsi : scan_int s with
  | none => rw [hsi] at h; simp at h
  | some p =>
    obtain ⟨v, r⟩ := p
    rw [hsi] at h
    obtain ⟨t, ht, hs⟩ := scan_int_token s r v hsi
    refine ⟨t, r, ht, hs, ?_⟩
    by_cases hk : k = 0
    · exact Or.inl hk
    · right
      simp only [hk, if_false, List.length_cons] at h
      split at h
      · rename_i r1
        exact ⟨r1, rfl, by omega⟩
      · simp at h; omega

/-- When all six conversions of `sscanf` are made, the text begins with six
integers separated by commas. -/
theorem scan_ints_six (s : List Char) (h : (scan_ints 6 s).length = 6) : six_integers s := by
  obtain ⟨t1, r1, k1, e1, a1⟩ := scan_ints_full 5 s h
  obtain ⟨q1, rfl, b1⟩ := a1.resolve_left (by decide)
  obtain ⟨t2, r2, k2, e2, a2⟩ := scan_ints_full 4 q1 b1
  obtain ⟨q2, rfl, b2⟩ := a2.resolve_left (by decide)
  obtain ⟨t3, r3, k3, e3, a3⟩ := scan_ints_full 3 q2 b2
  obtain ⟨q3, rfl, b3⟩ := a3.resolve_left (by decide)
  obtain ⟨t4, r4, k4, e4, a4⟩ := scan_ints_full 2 q3 b3
  obtain ⟨q4, rfl, b4⟩ := a4.resolve_left (by decide)
  obtain ⟨t5, r5, k5, e5, a5⟩ := scan_ints_full 1 q4 b4
  obtain ⟨q5, rfl, b5⟩ := a5.resolve_left (by decide)
  obtain ⟨t6, r6, k6, e6, _⟩ := scan_ints_full 0 q5 b5
  refine ⟨t1, t2, t3, t4, t5, t6, r6, k1, k2, k3, k4, k5, k6, ?_⟩
  rw [e1, e2, e3, e4, e5, e6]

theorem six_integers_append (s x : List Char) (h : six_integers s) : six_integers (s ++ x) := by
  obtain ⟨t1, t2, t3, t4, t5, t6, rest, k1, k2, k3, k4, k5, k6, e⟩ := h
  refine ⟨t1, t2, t3, t4, t5, t6, rest ++ x, k1, k2, k3, k4, k5, k6, ?_⟩
  rw [e]
  simp

theorem int_token_ne_nil (t : List Char) (h : int_token t) : t ≠ [] := by
  obtain ⟨ws, sg, ds, e, _, _, hds, _⟩ := h
  intro ht
  rw [ht] at e
  have := congrArg List.length e
  simp at this
  exact hds (List.length_eq_zero.1 (by omega))

theorem not_six_integers_nil : ¬ six_integers [] := by
  rintro ⟨t1, t2, t3, t4, t5, t6, rest, k1, _, _, _, _, _, e⟩
  have := congrArg List.length e
  simp at this
  omega

/-! ## The world: bookkeeping -/

@[simp] theorem emit_log (w : World) (e : Event) : (w.emit e).log = w.log ++ [e] := rfl

@[simp] theorem emit_sock (w : World) (e : Event) (fd : Int) : (w.emit e).sock fd = w.sock fd :=
  rfl

@[simp] theorem setSock_log (w : World) (fd : Int) (p : Peer) : (w.setSock fd p).log = w.log :=
  rfl

@[simp] theorem send_cmd_log (w : World) (fd : Int) (cmd : List Char) :
    (send_cmd w fd cmd).log = w.log ++ [Event.send fd (cmd ++ ['\r', '\n'])] := rfl

@[simp] theorem send_cmd_sock (w : World) (fd fd1 : Int) (cmd : List Char) :
    (send_cmd w fd cmd).sock fd1 = w.sock fd1 := rfl

@[simp] theorem close_log (w : World) (fd : Int) : (close w fd).log = w.log ++ [Event.close fd] :=
  rfl

theorem setSock_sock_self (w : World) (fd : Int) (p q : Peer) (h : w.sock fd = some p) :
    (w.setSock fd q).sock fd = some q := by
  unfold World.sock at h ⊢
  split at h
  · cases h
  · rename_i hfd
    rw [if_neg hfd]
    have hlt : fd.toNat < w.socks.length := by
      by_contra hge
      rw [List.getElem?_eq_none (by omega)] at h
      cases h
    simp [World.setSock, hlt]

theorem recv_response_of_sock (w : World) (fd : Int) (p : Peer) (h : w.sock fd = some p) :
    recv_response w fd
      = ((read_response p.rx).1, w.setSock fd { p with rx := (read_response p.rx).2 }) := by
  simp [recv_response, h]

@[simp] theorem recv_response_log (w : World) (fd : Int) : (recv_response w fd).2.log = w.log := by
  unfold recv_response
  split <;> rfl

theorem has_code_unique (lines : List (List Char)) (a b : List Char)
    (ha : has_code lines a = true) (hb : has_code lines b = true) : a = b := by
  cases lines with
  | nil => cases ha
  | cons l ls =>
    simp only [has_code, beq_iff_eq] at ha hb
    rw [← ha, ← hb]

/-! ## Session controller: login -/

/-- C5: for a session whose control descriptor is a connection, with `r1` the
next reply on it (the reply to USER) and `r2` the reply after that (the reply
to PASS when PASS is sent): `login` succeeds exactly when `r1` has code 230,
or `r1` has code 331 and `r2` has code 230; it sends USER, and then PASS
exactly when `r1` has code 331, and nothing else; and on success the
authenticated flag is set. -/
theorem login_outcome (c : FTPClient) (w : World) (user pass : List Char) (p : Peer)
    (hfd : 0 ≤ c.ctrl_sock) (hp : w.sock c.ctrl_sock = some p) :
    ((login c w user pass).1 = true ↔
        (has_code (read_response p.rx).1 "230".toList = true ∨
          (has_code (read_response p.rx).1 "331".toList = true ∧
            has_code (read_response (read_response p.rx).2).1 "230".toList = true))) ∧
    (login c w user pass).2.2.log
      = w.log ++ Event.send c.ctrl_sock ("USER ".toList ++ user ++ ['\r', '\n']) ::
          (if has_code (read_response p.rx).1 "331".toList = true
            then [Event.send c.ctrl_sock ("PASS ".toList ++ pass ++ ['\r', '\n'])] else []) ∧
    ((login c w user pass).1 = true → (login c w user pass).2.1.logged_in = true) := by
  have hnot : ¬ c.ctrl_sock < 0 := by omega
  have h1 := recv_response_of_sock (send_cmd w c.ctrl_sock ("USER ".toList ++ user))
    c.ctrl_sock p (by simpa using hp)
  have hp2 := setSock_sock_self (send_cmd w c.ctrl_sock ("USER ".toList ++ user)) c.ctrl_sock p
    { p with rx := (read_response p.rx).2 } (by simpa using hp)
  have h2 := recv_response_of_sock
    (send_cmd ((send_cmd w c.ctrl_sock ("USER ".toList ++ user)).setSock c.ctrl_sock
      { p with rx := (read_response p.rx).2 }) c.ctrl_sock ("PASS ".toList ++ pass))
    c.ctrl_sock _ (by simpa using hp2)
  have hx : has_code (read_response p.rx).1 "331".toList = true →
      has_code (read_response p.rx).1 "230".toList = true → False := by
    intro a b
    have := has_code_unique _ _ _ a b
    revert this
    decide
  unfold login
  rw [if_neg hnot]
  simp only [h1, h2]
  cases h230 : has_code (read_response p.rx).1 "230".toList <;>
    cases h331 : has_code (read_response p.rx).1 "331".toList <;>
    cases hp230 : has_code (read_response (read_response p.rx).2).1 "230".toList <;>
    simp_all

theorem login_outcome_witness :
    (login { FTPClient.new with ctrl_sock := 0 }
        ⟨[], [⟨wire ["331 Password required".toList, "230 Logged in".toList], [], []⟩],
          [], [], [], []⟩ "bob".toList "secret".toList).1 = true := by
  have h := (login_outcome { FTPClient.new with ctrl_sock := 0 }
    ⟨[], [⟨wire ["331 Password required".toList, "230 Logged in".toList], [], []⟩],
      [], [], [], []⟩ "bob".toList "secret".toList
    ⟨wire ["331 Password required".toList, "230 Logged in".toList], [], []⟩
    (by decide) (by decide)).1
  exact h.2 (Or.inr (by decide))

/-- C6 (as amended): for a session whose control descriptor is a connection,
when the server replies 331 to USER and 530 to PASS, `login` returns failure
and leaves the session state, the authenticated flag included, as it was
before the call (so the flag is false if it was false). -/
theorem login_rejected_password (c : FTPClient) (w : World) (user pass : List Char) (p : Peer)
    (hfd : 0 ≤ c.ctrl_sock) (hp : w.sock c.ctrl_sock = some p)
    (h331 : has_code (read_response p.rx).1 "331".toList = true)
    (h530 : has_code (read_response (read_response p.rx).2).1 "530".toList = true) :
    (login c w user pass).1 = false ∧ (login c w user pass).2.1 = c ∧
    (c.logged_in = false → (login c w user pass).2.1.logged_in = false) := by
  have hnot : ¬ c.ctrl_sock < 0 := by omega
  have h1 := recv_response_of_sock (send_cmd w c.ctrl_sock ("USER ".toList ++ user))
    c.ctrl_sock p (by simpa using hp)
  have hp2 := setSock_sock_self (send_cmd w c.ctrl_sock ("USER ".toList ++ user)) c.ctrl_sock p
    { p with rx := (read_response p.rx).2 } (by simpa using hp)
  have h2 := recv_response_of_sock
    (send_cmd ((send_cmd w c.ctrl_sock ("USER ".toList ++ user)).setSock c.ctrl_sock
      { p with rx := (read_response p.rx).2 }) c.ctrl_sock ("PASS ".toList ++ pass))
    c.ctrl_sock _ (by simpa using hp2)
  have hx : has_code (read_response p.rx).1 "230".toList = false := by
    cases h : has_code (read_response p.rx).1 "230".toList
    · rfl
    · exact absurd (has_code_unique _ _ _ h331 h) (by decide)
  have hy : has_code (read_response (read_response p.rx).2).1 "230".toList = false := by
    cases h : has_code (read_response (read_response p.rx).2).1 "230".toList
    · rfl
    · exact absurd (has_code_unique _ _ _ h530 h) (by decide)
  unfold login
  rw [if_neg hnot]
  simp only [h1, h2]
  simp_all

theorem login_rejected_password_witness :
    (login { FTPClient.new with ctrl_sock := 0 }
        ⟨[], [⟨wire ["331 Password required".toList, "530 Login incorrect".toList], [], []⟩],
          [], [], [], []⟩ "bob".toList "wrong".toList).2.1.logged_in = false :=
  (login_rejected_password { FTPClient.new with ctrl_sock := 0 }
    ⟨[], [⟨wire ["331 Password required".toList, "530 Login incorrect".toList], [], []⟩],
      [], [], [], []⟩ "bob".toList "wrong".toList
    ⟨wire ["331 Password required".toList, "530 Login incorrect".toList], [], []⟩
    (by decide) (by decide) (by decide) (by decide)).2.2 (by decide)

/-- C6 (as stated) fails on a session that is already authenticated: after
331 to USER and 530 to PASS, `login` returns failure and the authenticated
flag is still true. -/
theorem login_rejected_keeps_flag :
    (login { FTPClient.new with ctrl_sock := 0, logged_in := true }
        ⟨[], [⟨wire ["331 Password required".toList, "530 Login incorrect".toList], [], []⟩],
          [], [], [], []⟩ "bob".toList "wrong".toList).1 = false ∧
    (login { FTPClient.new with ctrl_sock := 0, logged_in := true }
        ⟨[], [⟨wire ["331 Password required".toList, "530 Login incorrect".toList], [], []⟩],
          [], [], [], []⟩ "bob".toList "wrong".toList).2.1.logged_in = true := by
  decide

/-! ## Session controller: the invariant -/

theorem login_invariant (c : FTPClient) (w : World) (user pass : List Char)
    (h : session_invariant c) : session_invariant (login c w user pass).2.1 := by
  unfold session_invariant at h ⊢
  simp only [login]
  split_ifs <;> simp_all

theorem logout_invariant (c : FTPClient) (w : World) (h : session_invariant c) :
    session_invariant (logout c w).2.1 := by
  unfold session_invariant at h ⊢
  simp only [logout]
  split_ifs <;> simp_all

theorem set_type_invariant (c : FTPClient) (w : World) (t : Char) (h : session_invariant c) :
    session_invariant (set_type c w t).2.1 := by
  unfold session_invariant at h ⊢
  simp only [set_type]
  split_ifs <;> simp_all

/-- C7 (the code at the failing input): a fresh session connects (greeting
220), logs in (230 to USER), and then calls `connect_to_host` again while no
address connects: the session is left authenticated without a control
connection. -/
theorem connect_failure_breaks_invariant :
    (connect_login_connect
      ⟨[some ⟨wire ["220 Ready".toList, "230 Welcome".toList], [], []⟩, none], [], [], [], [], []⟩
      "host".toList "bob".toList "secret".toList 21).1.1 = true ∧
    (connect_login_connect
      ⟨[some ⟨wire ["220 Ready".toList, "230 Welcome".toList], [], []⟩, none], [], [], [], [], []⟩
      "host".toList "bob".toList "secret".toList 21).2.1.1 = true ∧
    (connect_login_connect
      ⟨[some ⟨wire ["220 Ready".toList, "230 Welcome".toList], [], []⟩, none], [], [], [], [], []⟩
      "host".toList "bob".toList "secret".toList 21).2.2
      = (false, ⟨-1, true, "host".toList, 'I'⟩,
          ⟨[], [⟨[], [], []⟩], [], [], [],
            [Event.connect "host".toList 21 0, Event.send 0 "USER bob\r\n".toList,
              Event.connect "host".toList 21 (-1)]⟩) ∧
    ¬ session_invariant (connect_login_connect
      ⟨[some ⟨wire ["220 Ready".toList, "230 Welcome".toList], [], []⟩, none], [], [], [], [], []⟩
      "host".toList "bob".toList "secret".toList 21).2.2.2.1 := by
  refine ⟨by decide, by decide, by decide, ?_⟩
  intro h
  have h2 := h (by decide)
  revert h2
  decide

/-! ## Session controller: transfers -/

@[simp] theorem connect_to_server_log (w : World) (host : List Char) (port : Int) :
    (connect_to_server w host port).2.log
      = w.log ++ [Event.connect host port (connect_to_server w host port).1] := by
  unfold connect_to_server
  split <;> rfl

@[simp] theorem enter_passive_mode_log (c : FTPClient) (w : World) (ip : List Char)
    (port : Int) :
    (enter_passive_mode c w ip port).2.2.2.log
      = w.log ++ [Event.send c.ctrl_sock ("PASV".toList ++ ['\r', '\n'])] := by
  simp only [enter_passive_mode]
  split
  · simp
  · split_ifs <;> simp

@[simp] theorem set_type_log (c : FTPClient) (w : World) (t : Char) :
    (set_type c w t).2.2.log
      = w.log ++ (if c.ctrl_sock < 0 then []
          else [Event.send c.ctrl_sock ("TYPE ".toList ++ [t] ++ ['\r', '\n'])]) := by
  simp only [set_type]
  split_ifs <;> simp

@[simp] theorem set_type_ctrl_sock (c : FTPClient) (w : World) (t : Char) :
    (set_type c w t).2.1.ctrl_sock = c.ctrl_sock := by
  simp only [set_type]
  split_ifs <;> rfl

@[simp] theorem fopen_log (w : World) (name mode : List Char) :
    (fopen w name mode).2.log = w.log ++ [Event.fopen name mode (fopen w name mode).1.isSome] := by
  unfold fopen
  split <;> rfl

@[simp] theorem setFile_log (w : World) (name content : List Char) :
    (w.setFile name content).log = w.log := rfl

@[simp] theorem list_transfer_log (w : World) (fd : Int) : (list_transfer w fd).log = w.log := by
  unfold list_transfer
  split <;> rfl

@[simp] theorem download_transfer_log (w : World) (fd : Int) (name : List Char) :
    (download_transfer w fd name).log = w.log := by
  unfold download_transfer
  split <;> rfl

@[simp] theorem upload_transfer_log (w : World) (fd : Int) (src : List (List Char)) :
    (upload_transfer w fd src).2.log
      = w.log ++ [Event.write fd (upload_result w fd src).2.1] := by
  simp only [upload_transfer]
  split <;> rfl

theorem list_files_events (c : FTPClient) (w : World) :
    closes_what_it_opens (events_of w (list_files c w).2.2) := by
  simp only [list_files]
  split_ifs
  all_goals simp [events_of, closes_what_it_opens]
  all_goals try (intros; first | omega | (subst_vars; simp))

theorem download_file_events (c : FTPClient) (w : World) (remote lcl : List Char) :
    closes_what_it_opens (events_of w (download_file c w remote lcl).2.2) := by
  simp only [download_file]
  split_ifs
  any_goals split
  all_goals simp [events_of, closes_what_it_opens]
  all_goals try split_ifs
  all_goals try simp
  all_goals try (intros; first | omega | (subst_vars; simp))

theorem upload_file_events (c : FTPClient) (w : World) (lcl remote : List Char) :
    closes_what_it_opens (events_of w (upload_file c w lcl remote).2.2) := by
  simp only [upload_file]
  split_ifs
  any_goals split
  all_goals simp [events_of, closes_what_it_opens]
  all_goals try split_ifs
  all_goals try simp
  all_goals try (intros; first | omega | (subst_vars; simp))
  all_goals try (split_ifs <;> simp)

/-- C8: for each of `list_files`, `download_file` and `upload_file`, whatever
the session, the server and the local files do, among the events of the call
every connection it opened is closed exactly once, and it closes nothing
else. -/
theorem transfers_close_data_connection (c : FTPClient) (w : World) (a b : List Char) :
    closes_what_it_opens (events_of w (list_files c w).2.2) ∧
    closes_what_it_opens (events_of w (download_file c w a b).2.2) ∧
    closes_what_it_opens (events_of w (upload_file c w a b).2.2) :=
  ⟨list_files_events c w, download_file_events c w a b, upload_file_events c w a b⟩

theorem download_loop_all : ∀ (blocks : List (List Char)) (file : List Char),
    (∀ b ∈ blocks, b ≠ []) → download_loop blocks file = (file ++ blocks.flatten, []) := by
  intro blocks
  induction blocks with
  | nil => intro file _; simp [download_loop]
  | cons b bs ih =>
    intro file h
    have hb : b ≠ [] := h b (by simp)
    simp [download_loop, hb, ih (file ++ b) (fun x hx => h x (by simp [hx]))]

theorem file_setFile (w : World) (name content : List Char) :
    (w.setFile name content).file name = some content := by
  simp [World.file, World.setFile]

/-- C9: a fresh session and a fresh process, in which the first connection
made is to a server whose successive replies have code 220 (greeting), 331 (to
USER), 230 (to PASS), 200 (to TYPE I), are the line `227 (10,0,0,5,200,10)`
(to PASV), and have code 150 (to RETR) and 226 (after the transfer), the
second connection made delivers `data` in any sequence of non-empty blocks
and then closes, and the local file can be opened.  Then `connect_to_host`,
`login` and `download_file` all succeed; the program sends exactly USER,
PASS, TYPE I, PASV and RETR file.bin, in this order; the data connection is
opened to `10.0.0.5` port `51210` and closed; and the local file holds
exactly `data`. -/
theorem download_end_to_end (ctl dat : Peer) (rest : List (Option Peer))
    (src : List (List Char)) (fs : List (Option (List (List Char))))
    (fl : List (List Char × List Char)) (out : List Char)
    (g u pw ty op fin : List (List Char)) (rx1 rx2 rx3 rx4 rx5 rx6 rx7 : List (Option Char))
    (host user pass lcl data : List Char) (port : Int)
    (h1 : read_response ctl.rx = (g, rx1)) (c1 : has_code g "220".toList = true)
    (h2 : read_response rx1 = (u, rx2)) (c2 : has_code u "331".toList = true)
    (h3 : read_response rx2 = (pw, rx3)) (c3 : has_code pw "230".toList = true)
    (h4 : read_response rx3 = (ty, rx4)) (c4 : has_code ty "200".toList = true)
    (h5 : read_response rx4 = (["227 (10,0,0,5,200,10)".toList], rx5))
    (h6 : read_response rx5 = (op, rx6)) (c6 : has_code op "150".toList = true)
    (h7 : read_response rx6 = (fin, rx7)) (c7 : has_code fin "226".toList = true)
    (hne : ∀ b ∈ dat.blocks, b ≠ []) (hdata : dat.blocks.flatten = data) :
    (connect_login_download ⟨some ctl :: some dat :: rest, [], some src :: fs, fl, out, []⟩
      host user pass "file.bin".toList lcl port).1.1 = true ∧
    (connect_login_download ⟨some ctl :: some dat :: rest, [], some src :: fs, fl, out, []⟩
      host user pass "file.bin".toList lcl port).2.1.1 = true ∧
    (connect_login_download ⟨some ctl :: some dat :: rest, [], some src :: fs, fl, out, []⟩
      host user pass "file.bin".toList lcl port).2.2.1 = true ∧
    (connect_login_download ⟨some ctl :: some dat :: rest, [], some src :: fs, fl, out, []⟩
      host user pass "file.bin".toList lcl port).2.2.2.2.log =
      [Event.connect host port 0,
       Event.send 0 ("USER ".toList ++ user ++ ['\r', '\n']),
       Event.send 0 ("PASS ".toList ++ pass ++ ['\r', '\n']),
       Event.send 0 "TYPE I\r\n".toList,
       Event.send 0 "PASV\r\n".toList,
       Event.connect "10.0.0.5".toList 51210 1,
       Event.send 0 "RETR file.bin\r\n".toList,
       Event.fopen lcl "wb".toList true,
       Event.fclose lcl,
       Event.close 1] ∧
    (connect_login_download ⟨some ctl :: some dat :: rest, [], some src :: fs, fl, out, []⟩
      host user pass "file.bin".toList lcl port).2.2.2.2.file lcl = some data := by
  have hx : has_code u "230".toList = false := by
    cases h : has_code u "230".toList
    · rfl
    · exact absurd (has_code_unique _ _ _ c2 h) (by decide)
  have hpv : parse_pasv_response "227 (10,0,0,5,200,10)".toList [] 0
      = (true, "10.0.0.5".toList, 51210) := by
    set_option maxRecDepth 4096 in decide
  have e1 : connect_to_host FTPClient.new
      ⟨some ctl :: some dat :: rest, [], some src :: fs, fl, out, []⟩ host port
      = (true, ⟨0, false, host, 'I'⟩,
          ⟨some dat :: rest, [{ ctl with rx := rx1 }], some src :: fs, fl, out,
            [Event.connect host port 0]⟩) := by
    simp only [String.toList] at c1
    simp [connect_to_host, connect_to_server, recv_response, World.sock, World.setSock,
      World.emit, h1, c1, FTPClient.new]
  have e2 : login ⟨0, false, host, 'I'⟩
      ⟨some dat :: rest, [{ ctl with rx := rx1 }], some src :: fs, fl, out,
        [Event.connect host port 0]⟩ user pass
      = (true, ⟨0, true, host, 'I'⟩,
          ⟨some dat :: rest, [{ ctl with rx := rx3 }], some src :: fs, fl, out,
            [Event.connect host port 0,
             Event.send 0 ("USER ".toList ++ user ++ ['\r', '\n']),
             Event.send 0 ("PASS ".toList ++ pass ++ ['\r', '\n'])]⟩) := by
    simp only [String.toList] at c2 c3 hx
    simp [login, send_cmd, recv_response, World.sock, World.setSock, World.emit, h2, h3, c2, c3,
      hx]
  have e3 : download_file ⟨0, true, host, 'I'⟩
      ⟨some dat :: rest, [{ ctl with rx := rx3 }], some src :: fs, fl, out,
        [Event.connect host port 0,
         Event.send 0 ("USER ".toList ++ user ++ ['\r', '\n']),
         Event.send 0 ("PASS ".toList ++ pass ++ ['\r', '\n'])]⟩ "file.bin".toList lcl
      = (true, ⟨0, true, host, 'I'⟩,
          ⟨rest, [{ ctl with rx := rx7 }, { dat with blocks := [] }], fs,
            (lcl, data) :: fl.filter (fun f => f.1 ≠ lcl), out,
            [Event.connect host port 0,
             Event.send 0 ("USER ".toList ++ user ++ ['\r', '\n']),
             Event.send 0 ("PASS ".toList ++ pass ++ ['\r', '\n']),
             Event.send 0 "TYPE I\r\n".toList,
             Event.send 0 "PASV\r\n".toList,
             Event.connect "10.0.0.5".toList 51210 1,
             Event.send 0 "RETR file.bin\r\n".toList,
             Event.fopen lcl "wb".toList true,
             Event.fclose lcl,
             Event.close 1]⟩) := by
    simp only [String.toList] at c4 c6 c7 hpv h5
    have hl := download_loop_all dat.blocks [] hne
    rw [hdata] at hl
    simp [download_file, ensure_logged_in, set_type, enter_passive_mode, send_cmd,
      recv_response, connect_to_server, opening_ok, fopen, download_transfer, close,
      World.sock, World.setSock, World.emit, World.setFile, h4, h5, h6, h7, c4, c6, c7, hpv, hl]
  simp only [connect_login_download, e1, e2, e3]
  simp [World.file]

theorem download_end_to_end_witness :
    (connect_login_download
      ⟨[some ⟨wire ["220 Ready".toList, "331 Password".toList, "230 In".toList,
          "200 Type set".toList, "227 (10,0,0,5,200,10)".toList, "150 Opening".toList,
          "226 Done".toList], [], []⟩,
        some ⟨[], ["he".toList, "\x00llo".toList], []⟩], [], [some []], [], [], []⟩
      "ftp.example".toList "bob".toList "secret".toList "file.bin".toList "out.bin".toList
      21).2.2.1 = true ∧
    (connect_login_download
      ⟨[some ⟨wire ["220 Ready".toList, "331 Password".toList, "230 In".toList,
          "200 Type set".toList, "227 (10,0,0,5,200,10)".toList, "150 Opening".toList,
          "226 Done".toList], [], []⟩,
        some ⟨[], ["he".toList, "\x00llo".toList], []⟩], [], [some []], [], [], []⟩
      "ftp.example".toList "bob".toList "secret".toList "file.bin".toList "out.bin".toList
      21).2.2.2.2.file "out.bin".toList = some "he\x00llo".toList := by
  have h := download_end_to_end
    ⟨wire ["220 Ready".toList, "331 Password".toList, "230 In".toList,
      "200 Type set".toList, "227 (10,0,0,5,200,10)".toList, "150 Opening".toList,
      "226 Done".toList], [], []⟩
    ⟨[], ["he".toList, "\x00llo".toList], []⟩ [] [] [] [] []
    ["220 Ready".toList] ["331 Password".toList] ["230 In".toList] ["200 Type set".toList]
    ["150 Opening".toList] ["226 Done".toList]
    (wire ["331 Password".toList, "230 In".toList,
      "200 Type set".toList, "227 (10,0,0,5,200,10)".toList, "150 Opening".toList,
      "226 Done".toList])
    (wire ["230 In".toList,
      "200 Type set".toList, "227 (10,0,0,5,200,10)".toList, "150 Opening".toList,
      "226 Done".toList])
    (wire ["200 Type set".toList, "227 (10,0,0,5,200,10)".toList, "150 Opening".toList,
      "226 Done".toList])
    (wire ["227 (10,0,0,5,200,10)".toList, "150 Opening".toList, "226 Done".toList])
    (wire ["150 Opening".toList, "226 Done".toList])
    (wire ["226 Done".toList])
    []
    "ftp.example".toList "bob".toList "secret".toList "out.bin".toList "he\x00llo".toList 21
    (by decide) (by decide) (by decide) (by decide) (by decide) (by decide) (by decide)
    (by decide) (by decide) (by decide) (by decide) (by decide) (by decide) (by decide)
    (by decide)
  exact ⟨h.2.2.1, h.2.2.2.2⟩

/-! ## Session controller: what the operations leave alone -/

theorem list_files_session (c : FTPClient) (w : World) : (list_files c w).2.1 = c := by
  simp only [list_files]
  split_ifs <;> rfl

theorem set_type_session (c : FTPClient) (w : World) (t : Char) :
    (set_type c w t).2.1.logged_in = c.logged_in ∧
    (set_type c w t).2.1.ctrl_sock = c.ctrl_sock := by
  simp only [set_type]
  split_ifs <;> exact ⟨rfl, rfl⟩

theorem download_file_session (c : FTPClient) (w : World) (remote lcl : List Char) :
    (download_file c w remote lcl).2.1.logged_in = c.logged_in ∧
    (download_file c w remote lcl).2.1.ctrl_sock = c.ctrl_sock := by
  have h := set_type_session c w c.current_type
  simp only [download_file]
  split_ifs
  any_goals split
  all_goals first | exact ⟨rfl, rfl⟩ | exact h

theorem upload_file_session (c : FTPClient) (w : World) (lcl remote : List Char) :
    (upload_file c w lcl remote).2.1.logged_in = c.logged_in ∧
    (upload_file c w lcl remote).2.1.ctrl_sock = c.ctrl_sock := by
  have h := set_type_session c w c.current_type
  simp only [upload_file]
  split_ifs
  any_goals split
  all_goals try split_ifs
  all_goals first | exact ⟨rfl, rfl⟩ | exact h

/-- Every public operation other than `connect_to_host` preserves the session
invariant, and `connect_to_host` preserves it when the TCP connection is made. -/
theorem invariant_kept (c : FTPClient) (w : World) (a b : List Char) (t : Char) (port : Int)
    (h : session_invariant c) :
    session_invariant (login c w a b).2.1 ∧ session_invariant (logout c w).2.1 ∧
    session_invariant (set_type c w t).2.1 ∧ session_invariant (list_files c w).2.1 ∧
    session_invariant (download_file c w a b).2.1 ∧
    session_invariant (upload_file c w a b).2.1 ∧
    (0 ≤ (connect_to_server w a port).1 → session_invariant (connect_to_host c w a port).2.1) := by
  refine ⟨login_invariant c w a b h, logout_invariant c w h, set_type_invariant c w t h, ?_, ?_,
    ?_, ?_⟩
  · rw [list_files_session]; exact h
  · intro hl
    rw [(download_file_session c w a b).1] at hl
    rw [(download_file_session c w a b).2]
    exact h hl
  · intro hl
    rw [(upload_file_session c w a b).1] at hl
    rw [(upload_file_session c w a b).2]
    exact h hl
  · intro hfd _
    simp only [connect_to_host]
    split_ifs <;> first | omega | exact hfd

/-! ## Reply reader: what a returned reply is -/

theorem read_response_loop_shape (code : List Char) :
    ∀ (fuel : Nat) (rx : List (Option Char)) (acc : List (List Char)), rx.length ≤ fuel →
      ∃ more : List (List Char),
        (read_response_loop code fuel rx acc).1 = acc ++ more ∧
        (∀ i, i < more.length → more[i]? = some (nth_line rx i)) ∧
        (∀ i, i + 1 < more.length → is_terminator code (nth_line rx i) = false) ∧
        ((∃ t, more.getLast? = some t ∧ is_terminator code t = true ∧
            (read_response_loop code fuel rx acc).2 = skip_lines more.length rx) ∨
          ((∀ t ∈ more, is_terminator code t = false) ∧ nth_line rx more.length = [] ∧
            (read_response_loop code fuel rx acc).2 = skip_lines (more.length + 1) rx)) := by
  intro fuel
  induction fuel with
  | zero =>
    intro rx acc h
    have hrx : rx = [] := List.length_eq_zero.1 (by omega)
    subst hrx
    refine ⟨[], by simp [read_response_loop], by simp, by simp, Or.inr ?_⟩
    simp [read_response_loop, nth_line, skip_lines, read_line, read_line_loop]
  | succ n ih =>
    intro rx acc h
    by_cases h1 : (read_line rx).1 = []
    · refine ⟨[], by simp [read_response_loop, h1], by simp, by simp, Or.inr ?_⟩
      simp [read_response_loop, h1, nth_line, skip_lines]
    · by_cases h2 : is_terminator code (read_line rx).1 = true
      · refine ⟨[(read_line rx).1], by simp [read_response_loop, h1, h2], ?_, by simp,
          Or.inl ⟨(read_line rx).1, by simp, h2, ?_⟩⟩
        · intro i hi
          have : i = 0 := by simpa using hi
          subst this
          simp [nth_line, skip_lines]
        · simp [read_response_loop, h1, h2, skip_lines]
      · have hlt := read_line_consumes rx h1
        obtain ⟨more, e1, e2, e3, e4⟩ := ih (read_line rx).2 (acc ++ [(read_line rx).1]) (by omega)
        have hloop : read_response_loop code (n + 1) rx acc
            = read_response_loop code n (read_line rx).2 (acc ++ [(read_line rx).1]) := by
          simp [read_response_loop, h1, h2]
        have h2' : is_terminator code (read_line rx).1 = false := by
          simpa using h2
        refine ⟨(read_line rx).1 :: more, ?_, ?_, ?_, ?_⟩
        · rw [hloop, e1]; simp
        · intro i hi
          cases i with
          | zero => simp [nth_line, skip_lines]
          | succ j =>
            have := e2 j (by simpa using hi)
            simpa [nth_line, skip_lines] using this
        · intro i hi
          cases i with
          | zero => simpa [nth_line, skip_lines] using h2'
          | succ j =>
            have := e3 j (by simp at hi; omega)
            simpa [nth_line, skip_lines] using this
        · rw [hloop]
          rcases e4 with ⟨t, a1, a2, a3⟩ | ⟨a0, a1, a2⟩
          · left
            refine ⟨t, ?_, a2, ?_⟩
            · cases more with
              | nil => simp at a1
              | cons m ms => simpa [List.getLast?_cons_cons] using a1
            · simpa [skip_lines] using a3
          · right
            refine ⟨?_, ?_, ?_⟩
            · intro t ht
              rcases List.mem_cons.1 ht with h | h
              · rw [h]; exact h2'
              · exact a0 t h
            · simpa [nth_line, skip_lines] using a1
            · simpa [skip_lines] using a2

/-- The reply returned is empty exactly when the first line read is empty. -/
theorem read_response_empty_iff (rx : List (Option Char)) :
    (read_response rx).1 = [] ↔ nth_line rx 0 = [] := by
  unfold read_response
  simp only [nth_line, skip_lines]
  split_ifs with c1 c2
  · simp [c1]
  · obtain ⟨more, e1, _⟩ := read_response_loop_shape ((read_line rx).1.take 3)
      (read_line rx).2.length (read_line rx).2 [(read_line rx).1] (le_refl _)
    rw [e1]
    simp [c1]
  · simp [c1]

theorem read_response_shape (rx rest : List (Option Char)) (first : List Char)
    (tail : List (List Char)) (h : read_response rx = (first :: tail, rest))
    (h4 : first[3]? = some '-') :
    (∀ i, i < tail.length + 1 → (first :: tail)[i]? = some (nth_line rx i)) ∧
    (∀ i, i + 1 < tail.length → is_terminator (first.take 3) (nth_line rx (i + 1)) = false) ∧
    ((∃ t, tail.getLast? = some t ∧ is_terminator (first.take 3) t = true ∧
        rest = skip_lines (tail.length + 1) rx) ∨
      ((∀ t ∈ tail, is_terminator (first.take 3) t = false) ∧
        nth_line rx (tail.length + 1) = [] ∧ rest = skip_lines (tail.length + 2) rx)) := by
  have hlen : 4 ≤ first.length := by
    by_contra hc
    rw [List.getElem?_eq_none (by omega)] at h4
    cases h4
  unfold read_response at h
  simp only [] at h
  split_ifs at h with c1 c2
  · cases h
  · obtain ⟨more, e1, e2, e3, e4⟩ := read_response_loop_shape ((read_line rx).1.take 3)
      (read_line rx).2.length (read_line rx).2 [(read_line rx).1] (le_refl _)
    rw [h] at e1 e4
    simp only [List.singleton_append, List.cons.injEq] at e1
    obtain ⟨hf, ht⟩ := e1
    subst ht
    rw [← hf] at e3 e4
    refine ⟨?_, ?_, ?_⟩
    · intro i hi
      cases i with
      | zero => simp [nth_line, skip_lines, hf]
      | succ j =>
        have := e2 j (by omega)
        simpa [nth_line, skip_lines] using this
    · intro i hi
      have := e3 i hi
      simpa [nth_line, skip_lines] using this
    · rcases e4 with ⟨t, a1, a2, a3⟩ | ⟨a0, a1, a2⟩
      · exact Or.inl ⟨t, a1, a2, by simpa [skip_lines] using a3⟩
      · exact Or.inr ⟨a0, by simpa [nth_line, skip_lines] using a1,
          by simpa [skip_lines] using a2⟩
  · simp only [Prod.mk.injEq, List.cons.injEq] at h
    exfalso
    apply c2
    rw [h.1.1]
    exact ⟨hlen, h4⟩

/-- C11 (as amended): for every stream, the reply `read_response` returns is
empty exactly when the first line read is empty; and when the reply is not
empty and its first line has `-` as 4th character, the reply is exactly the
lines read one after the other from the stream, no line between the first and
the last is a terminator line, and either the last line is a terminator line
that comes after the first line (a complete reply, with nothing read beyond
it), or no line after the first is a terminator line and the line read next
was empty, in which case the lines read before it are returned as the reply
and the empty line is consumed. -/
theorem read_response_complete_or_cut (rx : List (Option Char)) :
    ((read_response rx).1 = [] ↔ nth_line rx 0 = []) ∧
    ∀ (rest : List (Option Char)) (first : List Char) (tail : List (List Char)),
      read_response rx = (first :: tail, rest) → first[3]? = some '-' →
      (∀ i, i < tail.length + 1 → (first :: tail)[i]? = some (nth_line rx i)) ∧
      (∀ i, i + 1 < tail.length →
        is_terminator (first.take 3) (nth_line rx (i + 1)) = false) ∧
      ((∃ t, tail.getLast? = some t ∧ is_terminator (first.take 3) t = true ∧
          rest = skip_lines (tail.length + 1) rx) ∨
        ((∀ t ∈ tail, is_terminator (first.take 3) t = false) ∧
          nth_line rx (tail.length + 1) = [] ∧ rest = skip_lines (tail.length + 2) rx)) :=
  ⟨read_response_empty_iff rx, fun rest first tail h h4 =>
    read_response_shape rx rest first tail h h4⟩

theorem read_response_complete_or_cut_witness :
    nth_line (wire ["226-Part1".toList, "226-Part2".toList]) 2 = [] :=
  (((read_response_complete_or_cut (wire ["226-Part1".toList, "226-Part2".toList])).2 []
    "226-Part1".toList ["226-Part2".toList] (by decide) (by decide)).2.2.resolve_left
      (by decide)).2.1

/-- C11 (as stated) fails when the stream closes after the opening line: the
reply returned is not empty, its first line has `-` as 4th character, and its
last line, the opening line itself, is not a terminator line. -/
theorem read_response_returns_cut_reply :
    read_response (wire ["226-Part1".toList]) = (["226-Part1".toList], []) ∧
    "226-Part1".toList[3]? = some '-' ∧
    is_terminator "226".toList "226-Part1".toList = false := by
  decide

/-! ## Passive-mode reply text: when parsing succeeds -/

theorem scan_digits_run (r : List Char) : ∀ (ds : List Char) (acc : Nat),
    (∀ c ∈ ds, isdigit c = true) → ∃ v, scan_digits (ds ++ r) acc = scan_digits r v := by
  intro ds
  induction ds with
  | nil => intro acc _; exact ⟨acc, rfl⟩
  | cons d ds ih =>
    intro acc h
    obtain ⟨v, hv⟩ := ih (acc * 10 + (d.toNat - 48)) (fun c hc => h c (by simp [hc]))
    exact ⟨v, by simp [scan_digits, h d (by simp), hv]⟩

theorem scan_digits_stop (r : List Char) (v : Nat)
    (hr : ∀ c t, r = c :: t → isdigit c = false) : scan_digits r v = (v, r) := by
  cases r with
  | nil => rfl
  | cons c t => simp [scan_digits, hr c t rfl]

theorem scan_digits_snd_eq (r : List Char) (v : Nat) :
    ∃ v1 r1, scan_digits r v = (v1, r1) := ⟨_, _, rfl⟩

/-- An integer token is converted by `%d`, and the conversion stops right
after it when what follows does not begin with a digit. -/
theorem scan_int_of_token (t r : List Char) (ht : int_token t) :
    ∃ v r1, scan_int (t ++ r) = some (v, r1) ∧
      ((∀ c tl, r = c :: tl → isdigit c = false) → r1 = r) := by
  obtain ⟨ws, sg, ds, rfl, hws, hsg, hds, hdig⟩ := ht
  obtain ⟨d0, ds1, rfl⟩ : ∃ d0 ds1, ds = d0 :: ds1 := by
    cases ds with
    | nil => exact absurd rfl hds
    | cons a b => exact ⟨a, b, rfl⟩
  have hd0 : isdigit d0 = true := hdig d0 (by simp)
  have hs := isdigit_not_special d0 hd0
  obtain ⟨v, hv⟩ := scan_digits_run r (d0 :: ds1) 0 hdig
  have hdrop : ∀ x : List Char, (ws ++ x).dropWhile isspace = x.dropWhile isspace := by
    intro x
    induction ws with
    | nil => rfl
    | cons a ws ih =>
      simp only [List.cons_append, List.dropWhile_cons, hws a (by simp), if_true]
      exact ih (fun c hc => hws c (by simp [hc]))
  have hres : ∃ v1 r1, scan_digits r v = (v1, r1) ∧
      ((∀ c tl, r = c :: tl → isdigit c = false) → r1 = r) := by
    refine ⟨(scan_digits r v).1, (scan_digits r v).2, rfl, ?_⟩
    intro hr
    rw [scan_digits_stop r v hr]
  obtain ⟨v1, r1, e1, e2⟩ := hres
  rw [e1] at hv
  simp only [List.cons_append] at hv
  rcases hsg with rfl | rfl | rfl
  · refine ⟨store_int (v1 : Int), r1, ?_, e2⟩
    unfold scan_int
    simp only [List.append_nil, List.append_assoc, hdrop, List.cons_append, List.dropWhile_cons,
      hs.1, Bool.false_eq_true, if_false, List.head?_cons, Option.some.injEq, hs.2.1, hs.2.2.1,
      or_self, hd0, if_true, hv, decide_False]
  · refine ⟨store_int (-(v1 : Int)), r1, ?_, e2⟩
    unfold scan_int
    have hsp : isspace '-' = false := by decide
    simp only [List.append_assoc, hdrop, List.cons_append, List.nil_append, List.dropWhile_cons,
      hsp, Bool.false_eq_true, if_false, List.head?_cons, true_or, if_true, List.drop_succ_cons,
      List.drop_zero, hd0, hv, decide_True]
  · refine ⟨store_int (v1 : Int), r1, ?_, e2⟩
    unfold scan_int
    have hsp : isspace '+' = false := by decide
    have hne : ¬ ('+' = '-') := by decide
    simp only [List.append_assoc, hdrop, List.cons_append, List.nil_append, List.dropWhile_cons,
      hsp, Bool.false_eq_true, if_false, List.head?_cons, Option.some.injEq, hne, or_true,
      if_true, List.drop_succ_cons, List.drop_zero, hd0, hv, decide_False]

theorem scan_ints_token_step (k : Nat) (t r : List Char) (ht : int_token t) :
    ∃ v, scan_ints (k + 2) (t ++ ',' :: r) = v :: scan_ints (k + 1) r := by
  obtain ⟨v, r1, e1, e2⟩ := scan_int_of_token t (',' :: r) ht
  have := e2 (by intro c tl h; cases h; decide)
  subst this
  exact ⟨v, by rw [scan_ints, e1]; simp⟩

theorem scan_ints_token_last (t r : List Char) (ht : int_token t) :
    ∃ v, scan_ints 1 (t ++ r) = [v] := by
  obtain ⟨v, r1, e1, _⟩ := scan_int_of_token t r ht
  exact ⟨v, by rw [scan_ints, e1]; simp⟩

/-- When the text begins with six integers separated by commas, all six
conversions of `sscanf` are made. -/
theorem scan_ints_of_six (s : List Char) (h : six_integers s) :
    ∃ a b c d e f, scan_ints 6 s = [a, b, c, d, e, f] := by
  obtain ⟨t1, t2, t3, t4, t5, t6, rest, k1, k2, k3, k4, k5, k6, rfl⟩ := h
  obtain ⟨a, ha⟩ := scan_ints_token_step 4 t1 (t2 ++ ',' :: (t3 ++ ',' :: (t4 ++ ',' ::
    (t5 ++ ',' :: (t6 ++ rest))))) k1
  obtain ⟨b, hb⟩ := scan_ints_token_step 3 t2 (t3 ++ ',' :: (t4 ++ ',' ::
    (t5 ++ ',' :: (t6 ++ rest)))) k2
  obtain ⟨c, hc⟩ := scan_ints_token_step 2 t3 (t4 ++ ',' :: (t5 ++ ',' :: (t6 ++ rest))) k3
  obtain ⟨d, hd⟩ := scan_ints_token_step 1 t4 (t5 ++ ',' :: (t6 ++ rest)) k4
  obtain ⟨e, he⟩ := scan_ints_token_step 0 t5 (t6 ++ rest) k5
  obtain ⟨f, hf⟩ := scan_ints_token_last t6 rest k6
  exact ⟨a, b, c, d, e, f, by rw [ha, hb, hc, hd, he, hf]⟩

theorem int_token_no_nul (t : List Char) (ht : int_token t) : ∀ c ∈ t, c ≠ '\x00' := by
  obtain ⟨ws, sg, ds, rfl, hws, hsg, _, hdig⟩ := ht
  intro c hc
  simp only [List.mem_append] at hc
  rcases hc with (h | h) | h
  · rintro rfl
    have := hws _ h
    revert this
    decide
  · rcases hsg with rfl | rfl | rfl
    · cases h
    · simp at h; rw [h]; decide
    · simp at h; rw [h]; decide
  · exact (isdigit_not_special c (hdig c h)).2.2.2.2.2.2

theorem six_integers_c_str (s : List Char) (h : six_integers s) : six_integers (c_str s) := by
  obtain ⟨t1, t2, t3, t4, t5, t6, rest, k1, k2, k3, k4, k5, k6, rfl⟩ := h
  refine ⟨t1, t2, t3, t4, t5, t6, c_str rest, k1, k2, k3, k4, k5, k6, ?_⟩
  have hp : ∀ (t x : List Char), int_token t →
      c_str (t ++ x) = t ++ c_str x := by
    intro t x ht
    unfold c_str
    rw [List.takeWhile_append_of_pos]
    intro a ha
    simpa using int_token_no_nul t ht a ha
  have hc : ∀ x : List Char, c_str (',' :: x) = ',' :: c_str x := by
    intro x
    simp [c_str, List.takeWhile_cons]
  rw [hp _ _ k1, hc, hp _ _ k2, hc, hp _ _ k3, hc, hp _ _ k4, hc, hp _ _ k5, hc, hp _ _ k6]

theorem int_token_no_close (t : List Char) (ht : int_token t) : ')' ∉ t := by
  obtain ⟨ws, sg, ds, rfl, hws, hsg, _, hdig⟩ := ht
  intro hc
  simp only [List.mem_append] at hc
  rcases hc with (h | h) | h
  · have := hws _ h
    revert this
    decide
  · rcases hsg with rfl | rfl | rfl
    · cases h
    · simp at h
    · simp at h
  · exact (isdigit_not_special _ (hdig _ h)).2.2.2.2.2.1 rfl

/-- A text read up to a character that its beginning does not contain: the
beginning lies before that character. -/
theorem starts_before (a b p rest : List Char) (c : Char) (h : a ++ c :: b = p ++ rest)
    (hp : c ∉ p) : ∃ r, a = p ++ r := by
  rcases List.append_eq_append_iff.1 h with ⟨a1, e1, e2⟩ | ⟨c1, e1, e2⟩
  · cases a1 with
    | nil => exact ⟨[], by simpa using e1.symm⟩
    | cons x xs =>
      simp only [List.cons_append, List.cons.injEq] at e2
      exact absurd (by rw [e1, e2.1]; simp) hp
  · exact ⟨c1, e1⟩

/-- Six integers separated by commas at the beginning of a text end before
the first `)` of the text. -/
theorem six_integers_before_close (grp post : List Char)
    (h : six_integers (grp ++ ')' :: post)) : six_integers grp := by
  obtain ⟨t1, t2, t3, t4, t5, t6, rest, k1, k2, k3, k4, k5, k6, e⟩ := h
  have hp : ')' ∉ t1 ++ ',' :: (t2 ++ ',' :: (t3 ++ ',' :: (t4 ++ ',' :: (t5 ++ ',' :: t6)))) := by
    have n1 := int_token_no_close t1 k1
    have n2 := int_token_no_close t2 k2
    have n3 := int_token_no_close t3 k3
    have n4 := int_token_no_close t4 k4
    have n5 := int_token_no_close t5 k5
    have n6 := int_token_no_close t6 k6
    have hne : ')' ≠ ',' := by decide
    simp only [List.mem_append, List.mem_cons, not_or]
    exact ⟨n1, hne, n2, hne, n3, hne, n4, hne, n5, hne, n6⟩
  have e' : grp ++ ')' :: post
      = (t1 ++ ',' :: (t2 ++ ',' :: (t3 ++ ',' :: (t4 ++ ',' :: (t5 ++ ',' :: t6))))) ++ rest := by
    rw [e]; simp
  obtain ⟨r, hr⟩ := starts_before grp post _ rest ')' e' hp
  exact ⟨t1, t2, t3, t4, t5, t6, r, k1, k2, k3, k4, k5, k6, by rw [hr]; simp⟩

theorem find_open (pre rest : List Char) (h : '(' ∉ pre) :
    find (pre ++ '(' :: rest) '(' = some pre.length := by
  unfold find
  rw [if_pos (by simp), List.indexOf_append_of_not_mem h]
  simp

theorem drop_after_open (pre rest : List Char) :
    (pre ++ '(' :: rest).drop (pre.length + 1) = rest := by
  have : pre ++ '(' :: rest = (pre ++ ['(']) ++ rest := by simp
  rw [this, List.drop_append_of_le_length (by simp), List.drop_of_length_le (by simp)]
  simp

/-- When the six conversions are made on the beginning of a text, up to its
first NUL, the text begins with six integers separated by commas. -/
theorem six_integers_of_scan (x : List Char) (n : Nat)
    (h : (scan_ints 6 (c_str (x.take n))).length = 6) : six_integers x := by
  have h6 := scan_ints_six _ h
  have e1 : x = c_str (x.take n)
      ++ ((x.take n).dropWhile (fun c => c ≠ '\x00') ++ x.drop n) := by
    unfold c_str
    rw [← List.append_assoc, List.takeWhile_append_dropWhile, List.take_append_drop]
  rw [e1]
  exact six_integers_append _ _ h6

theorem not_six_integers_of_scan (s : List Char) (h : (scan_ints 6 s).length ≠ 6) :
    ¬ six_integers s := by
  intro h6
  obtain ⟨a, b, c, d, e, f, hs⟩ := scan_ints_of_six s h6
  rw [hs] at h
  exact h rfl

/-- C4: when the text has no `(`, or has no `)`, or its parenthesised group
(the text after the first `(` up to the next `)`) does not begin with six
integers separated by commas, `parse_pasv_response` returns failure and both
output parameters keep the values they had before the call.  Nothing is
assumed about the text before the first `(`: it may contain `)`. -/
theorem parse_pasv_malformed (str ip : List Char) (port : Int)
    (h : '(' ∉ str ∨ ')' ∉ str ∨
      ∃ pre grp post, str = pre ++ '(' :: (grp ++ ')' :: post) ∧ '(' ∉ pre ∧
        ')' ∉ grp ∧ ¬ six_integers grp) :
    parse_pasv_response str ip port = (false, ip, port) := by
  rcases h with h | h | ⟨pre, grp, post, rfl, h1, h3, h4⟩
  · simp [parse_pasv_response, find, h]
  · unfold parse_pasv_response find
    rw [if_neg h]
    split
    · simp_all
    · rfl
  · have f1 := find_open pre (grp ++ ')' :: post) h1
    have hd := drop_after_open pre (grp ++ ')' :: post)
    unfold parse_pasv_response
    rw [f1]
    cases hf : find (pre ++ '(' :: (grp ++ ')' :: post)) ')' with
    | none => rfl
    | some e =>
      simp only [substr, hd]
      split
      · rename_i a b c d e1 f hsc
        exfalso
        apply h4
        exact six_integers_before_close grp post
          (six_integers_of_scan _ _ (by rw [hsc]; rfl))
      · rfl

theorem parse_pasv_malformed_witness :
    parse_pasv_response "227 ) (1,2,3)".toList "old".toList 7 = (false, "old".toList, 7) :=
  parse_pasv_malformed _ _ _ (Or.inr (Or.inr ⟨"227 ) ".toList, "1,2,3".toList, [],
    rfl, by decide, by decide, not_six_integers_of_scan _ (by decide)⟩))

/-- The length `substr` is asked for reaches the end of the group, wherever
the first `)` of the text is, for a text shorter than `2 ^ 64`. -/
theorem substr_count_covers (pre grp post : List Char) (e : Nat) (h1 : '(' ∉ pre)
    (h3 : ')' ∉ grp) (hlen : (pre ++ '(' :: (grp ++ ')' :: post)).length < 2 ^ 64)
    (hf : find (pre ++ '(' :: (grp ++ ')' :: post)) ')' = some e) :
    grp.length ≤ (e + 2 ^ 64 - pre.length - 1) % 2 ^ 64 := by
  simp only [List.length_append, List.length_cons] at hlen
  by_cases hp : ')' ∈ pre
  · have he : e = pre.indexOf ')' := by
      unfold find at hf
      rw [if_pos (by simp), List.indexOf_append_of_mem hp] at hf
      exact (Option.some.inj hf).symm
    have hlt : pre.indexOf ')' < pre.length := List.indexOf_lt_length.2 hp
    rw [Nat.mod_eq_of_lt (by omega)]
    omega
  · have he := (find_group pre grp post h1 hp h3).2
    rw [he] at hf
    have : e = pre.length + 1 + grp.length := (Option.some.inj hf).symm
    subst this
    have e2 : pre.length + 1 + grp.length + 2 ^ 64 - pre.length - 1 = grp.length + 2 ^ 64 := by
      omega
    rw [e2, Nat.add_mod_right, Nat.mod_eq_of_lt (by omega)]

/-- C12 (as amended): for a text, shorter than `2 ^ 64`, in which a `)` follows
the first `(`, `parse_pasv_response` succeeds exactly when the text after the
first `(` up to the next `)` begins with six integers separated by commas
(each an optional run of white space, an optional sign and one or more
digits); what follows the sixth integer inside the group is not examined. -/
theorem parse_pasv_succeeds_iff (pre grp post ip : List Char) (port : Int)
    (h1 : '(' ∉ pre) (h3 : ')' ∉ grp)
    (hlen : (pre ++ '(' :: (grp ++ ')' :: post)).length < 2 ^ 64) :
    (parse_pasv_response (pre ++ '(' :: (grp ++ ')' :: post)) ip port).1 = true ↔
      six_integers grp := by
  have f1 := find_open pre (grp ++ ')' :: post) h1
  have hd := drop_after_open pre (grp ++ ')' :: post)
  have hmem : ')' ∈ pre ++ '(' :: (grp ++ ')' :: post) := by simp
  obtain ⟨e, hf⟩ : ∃ e, find (pre ++ '(' :: (grp ++ ')' :: post)) ')' = some e := by
    unfold find
    rw [if_pos hmem]
    exact ⟨_, rfl⟩
  constructor
  · intro h
    unfold parse_pasv_response at h
    rw [f1, hf] at h
    simp only [substr, hd] at h
    split at h
    · rename_i a b c d e1 f hsc
      exact six_integers_before_close grp post (six_integers_of_scan _ _ (by rw [hsc]; rfl))
    · cases h
  · intro h
    have hn := substr_count_covers pre grp post e h1 h3 hlen hf
    have htake : (grp ++ ')' :: post).take ((e + 2 ^ 64 - pre.length - 1) % 2 ^ 64)
        = grp ++ ((')' :: post).take ((e + 2 ^ 64 - pre.length - 1) % 2 ^ 64 - grp.length)) := by
      rw [List.take_append_eq_append_take, List.take_of_length_le hn]
    obtain ⟨a, b, c, d, e1, f, hsc⟩ := scan_ints_of_six _
      (six_integers_c_str _ (six_integers_append grp
        ((')' :: post).take ((e + 2 ^ 64 - pre.length - 1) % 2 ^ 64 - grp.length)) h))
    unfold parse_pasv_response
    rw [f1, hf]
    simp only [substr, hd, htake, hsc]

theorem parse_pasv_succeeds_iff_witness : six_integers "1,2,3,4,5,6,7".toList :=
  (parse_pasv_succeeds_iff "227 ) ".toList "1,2,3,4,5,6,7".toList [] [] 0
    (by decide) (by decide) (by decide)).1 (by decide)

/-- C12 (as stated) fails: a group of seven comma-separated integers and a
group of six integers followed by other characters are both accepted; and a
text in which no `)` follows the first `(`, so that there is no text between
a `(` and a `)` at all, is accepted as well. -/
theorem parse_pasv_accepts_trailing_text :
    parse_pasv_response "227 (1,2,3,4,5,6,7)".toList [] 0 = (true, "1.2.3.4".toList, 1286) ∧
    parse_pasv_response "227 (1,2,3,4,5,6x)".toList [] 0 = (true, "1.2.3.4".toList, 1286) ∧
    parse_pasv_response "227 ) (1,2,3,4,5,6".toList [] 0 = (true, "1.2.3.4".toList, 1286) := by
  decide

/-! ## Session controller: connect, logout, type -/

theorem connect_to_server_made (w : World) (host : List Char) (port : Int) (p : Peer)
    (ps : List (Option Peer)) (h : w.peers = some p :: ps) :
    (connect_to_server w host port).1 = w.socks.length ∧
    (connect_to_server w host port).2.sock w.socks.length = some p := by
  unfold connect_to_server
  rw [h]
  refine ⟨rfl, ?_⟩
  simp [World.sock, World.emit]

theorem connect_to_server_result (w : World) (host : List Char) (port : Int)
    (h : 0 ≤ (connect_to_server w host port).1) : ∃ p ps, w.peers = some p :: ps := by
  unfold connect_to_server at h
  split at h
  · simp at h
  · simp at h
  · rename_i p ps hp
    exact ⟨p, ps, hp⟩

/-- What `connect_to_host` does once the TCP connection is made, with `p` the
connection: the outcome follows the code of the first reply. -/
theorem connect_to_host_made (c : FTPClient) (w : World) (host : List Char) (port : Int)
    (p : Peer) (ps : List (Option Peer)) (h : w.peers = some p :: ps) :
    connect_to_host c w host port
      = (has_code (read_response p.rx).1 "220".toList,
          if has_code (read_response p.rx).1 "220".toList = true
            then { c with ctrl_sock := w.socks.length, connected_host := host }
            else { c with ctrl_sock := w.socks.length },
          (connect_to_server w host port).2.setSock w.socks.length
            { p with rx := (read_response p.rx).2 }) := by
  obtain ⟨h1, h2⟩ := connect_to_server_made w host port p ps h
  have hr := recv_response_of_sock _ _ p h2
  unfold connect_to_host
  simp only [h1, hr]
  rw [if_neg (by omega)]
  cases has_code (read_response p.rx).1 "220".toList <;> simp

/-- The part of C13 that holds: `connect_to_host` succeeds only if the TCP
connection was made and the first reply read has code 220, and then the
session holds the new control connection; the authenticated flag is whatever
it was before. -/
theorem connect_to_host_success (c : FTPClient) (w : World) (host : List Char) (port : Int)
    (h : (connect_to_host c w host port).1 = true) :
    (∃ p ps, w.peers = some p :: ps ∧ has_code (read_response p.rx).1 "220".toList = true) ∧
    (connect_to_host c w host port).2.1.ctrl_sock = w.socks.length ∧
    (connect_to_host c w host port).2.1.logged_in = c.logged_in := by
  have hfd : 0 ≤ (connect_to_server w host port).1 := by
    by_contra hc
    simp [connect_to_host, not_le.1 hc] at h
  obtain ⟨p, ps, hp⟩ := connect_to_server_result w host port hfd
  rw [connect_to_host_made c w host port p ps hp] at h ⊢
  simp only at h
  refine ⟨⟨p, ps, hp, h⟩, ?_, ?_⟩
  · dsimp only
    rw [if_pos h]
  · dsimp only
    rw [if_pos h]

/-- C13 (the code at the failing input): a fresh session connects (greeting
220), logs in (230 to USER) and calls `connect_to_host` again, which connects
to a server that greets with 220: the call succeeds and the session is still
flagged authenticated on the new connection. -/
theorem reconnect_keeps_authenticated :
    (connect_login_connect
      ⟨[some ⟨wire ["220 Ready".toList, "230 Welcome".toList], [], []⟩,
        some ⟨wire ["220 Other".toList], [], []⟩], [], [], [], [], []⟩
      "host".toList "bob".toList "secret".toList 21).2.1.1 = true ∧
    (connect_login_connect
      ⟨[some ⟨wire ["220 Ready".toList, "230 Welcome".toList], [], []⟩,
        some ⟨wire ["220 Other".toList], [], []⟩], [], [], [], [], []⟩
      "host".toList "bob".toList "secret".toList 21).2.2.1 = true ∧
    (connect_login_connect
      ⟨[some ⟨wire ["220 Ready".toList, "230 Welcome".toList], [], []⟩,
        some ⟨wire ["220 Other".toList], [], []⟩], [], [], [], [], []⟩
      "host".toList "bob".toList "secret".toList 21).2.2.2.1
      = ⟨1, true, "host".toList, 'I'⟩ := by
  decide

theorem login_sends_user (c : FTPClient) (w : World) (user pass : List Char)
    (h : 0 ≤ c.ctrl_sock) :
    ∃ rest, (login c w user pass).2.2.log
      = w.log ++ Event.send c.ctrl_sock ("USER ".toList ++ user ++ ['\r', '\n']) :: rest := by
  simp only [login]
  rw [if_neg (by omega)]
  split_ifs
  · exact ⟨[], by simp⟩
  · exact ⟨[Event.send c.ctrl_sock ("PASS ".toList ++ pass ++ ['\r', '\n'])], by simp⟩
  · exact ⟨[Event.send c.ctrl_sock ("PASS ".toList ++ pass ++ ['\r', '\n'])], by simp⟩
  · exact ⟨[], by simp⟩

/-- C20: when the TCP connection is made but the greeting is missing or does
not have code 220, `connect_to_host` returns failure, the session holds the
new descriptor as its control connection, the connection has not been closed
(the only event of the call is the connect), and a `login` called next is
not rejected for lack of a control connection: its first event is USER sent
on that descriptor. -/
theorem connect_bad_greeting_keeps_connection (c : FTPClient) (w : World)
    (host user pass : List Char) (port : Int) (p : Peer) (ps : List (Option Peer))
    (hp : w.peers = some p :: ps)
    (hg : has_code (read_response p.rx).1 "220".toList = false) :
    (connect_to_host c w host port).1 = false ∧
    (connect_to_host c w host port).2.1.ctrl_sock = w.socks.length ∧
    events_of w (connect_to_host c w host port).2.2
      = [Event.connect host port w.socks.length] ∧
    (connect_to_host c w host port).2.2.sock w.socks.length
      = some { p with rx := (read_response p.rx).2 } ∧
    ∃ rest, events_of (connect_to_host c w host port).2.2
        (login (connect_to_host c w host port).2.1 (connect_to_host c w host port).2.2
          user pass).2.2
      = Event.send w.socks.length ("USER ".toList ++ user ++ ['\r', '\n']) :: rest := by
  obtain ⟨h1, h2⟩ := connect_to_server_made w host port p ps hp
  have hm := connect_to_host_made c w host port p ps hp
  rw [hg] at hm
  simp only [Bool.false_eq_true, if_false] at hm
  rw [hm]
  refine ⟨rfl, rfl, ?_, ?_, ?_⟩
  · simp [events_of, h1]
  · exact setSock_sock_self _ _ p _ h2
  · obtain ⟨rest, hr⟩ := login_sends_user { c with ctrl_sock := w.socks.length }
      ((connect_to_server w host port).2.setSock w.socks.length
        { p with rx := (read_response p.rx).2 }) user pass (by simp)
    exact ⟨rest, by simp only [events_of, hr]; simp⟩

theorem connect_bad_greeting_keeps_connection_witness :
    (connect_to_host FTPClient.new
      ⟨[some ⟨wire ["421 Busy".toList], [], []⟩], [], [], [], [], []⟩
      "host".toList 21).2.1.ctrl_sock = 0 :=
  (connect_bad_greeting_keeps_connection FTPClient.new
    ⟨[some ⟨wire ["421 Busy".toList], [], []⟩], [], [], [], [], []⟩
    "host".toList "bob".toList "secret".toList 21 ⟨wire ["421 Busy".toList], [], []⟩ []
    rfl (by decide)).2.1

/-- What `logout` does on a session whose control descriptor is the
connection `p`: the outcome follows the code of the next reply. -/
theorem logout_of_sock (c : FTPClient) (w : World) (p : Peer) (hfd : 0 ≤ c.ctrl_sock)
    (hp : w.sock c.ctrl_sock = some p) :
    logout c w
      = if has_code (read_response p.rx).1 "221".toList = true then
          (true, { c with logged_in := false, ctrl_sock := -1 },
            close ((send_cmd w c.ctrl_sock "QUIT".toList).setSock c.ctrl_sock
              { p with rx := (read_response p.rx).2 }) c.ctrl_sock)
        else
          (false, c, (send_cmd w c.ctrl_sock "QUIT".toList).setSock c.ctrl_sock
            { p with rx := (read_response p.rx).2 }) := by
  have h1 := recv_response_of_sock (send_cmd w c.ctrl_sock "QUIT".toList) c.ctrl_sock p
    (by simpa using hp)
  unfold logout
  rw [if_neg (by omega)]
  simp only [h1]

/-- C14: without a control connection `logout` returns success and does
nothing at all; with one, it sends QUIT and succeeds exactly when the next
reply has code 221, in which case the connection is closed, the session has
no control connection and is not authenticated; for any other reply, or
none, it returns failure, closes nothing and leaves the session as it was. -/
theorem logout_outcome (c : FTPClient) (w : World) (p : Peer) :
    (c.ctrl_sock < 0 → logout c w = (true, c, w)) ∧
    (0 ≤ c.ctrl_sock → w.sock c.ctrl_sock = some p →
      ((logout c w).1 = true ↔ has_code (read_response p.rx).1 "221".toList = true) ∧
      (has_code (read_response p.rx).1 "221".toList = true →
        (logout c w).2.1 = { c with logged_in := false, ctrl_sock := -1 } ∧
        events_of w (logout c w).2.2
          = [Event.send c.ctrl_sock "QUIT\r\n".toList, Event.close c.ctrl_sock]) ∧
      (has_code (read_response p.rx).1 "221".toList = false →
        (logout c w).1 = false ∧ (logout c w).2.1 = c ∧
        events_of w (logout c w).2.2 = [Event.send c.ctrl_sock "QUIT\r\n".toList])) := by
  constructor
  · intro h
    simp [logout, h]
  · intro hfd hp
    rw [logout_of_sock c w p hfd hp]
    cases h : has_code (read_response p.rx).1 "221".toList
    · simp [events_of]
    · simp [events_of]

theorem logout_outcome_witness :
    (logout { FTPClient.new with ctrl_sock := 0, logged_in := true }
      ⟨[], [⟨wire ["500 What".toList], [], []⟩], [], [], [], []⟩).2.1
      = { FTPClient.new with ctrl_sock := 0, logged_in := true } :=
  (((logout_outcome { FTPClient.new with ctrl_sock := 0, logged_in := true }
      ⟨[], [⟨wire ["500 What".toList], [], []⟩], [], [], [], []⟩
      ⟨wire ["500 What".toList], [], []⟩).2 (by decide) (by decide)).2.2 (by decide)).2.1

/-- What `set_type` does on a session whose control descriptor is the
connection `p`: the outcome follows the code of the next reply. -/
theorem set_type_of_sock (c : FTPClient) (w : World) (t : Char) (p : Peer)
    (hfd : 0 ≤ c.ctrl_sock) (hp : w.sock c.ctrl_sock = some p) :
    set_type c w t
      = if has_code (read_response p.rx).1 "200".toList = true then
          (true, { c with current_type := t },
            (send_cmd w c.ctrl_sock ("TYPE ".toList ++ [t])).setSock c.ctrl_sock
              { p with rx := (read_response p.rx).2 })
        else
          (false, c, (send_cmd w c.ctrl_sock ("TYPE ".toList ++ [t])).setSock c.ctrl_sock
            { p with rx := (read_response p.rx).2 }) := by
  have h1 := recv_response_of_sock (send_cmd w c.ctrl_sock ("TYPE ".toList ++ [t])) c.ctrl_sock p
    (by simpa using hp)
  unfold set_type
  rw [if_neg (by omega)]
  simp only [h1]
  cases has_code (read_response p.rx).1 "200".toList <;> simp

theorem login_type (c : FTPClient) (w : World) (user pass : List Char) :
    (login c w user pass).2.1.current_type = c.current_type := by
  simp only [login]
  split_ifs <;> rfl

theorem logout_type (c : FTPClient) (w : World) :
    (logout c w).2.1.current_type = c.current_type := by
  simp only [logout]
  split_ifs <;> rfl

theorem connect_to_host_type (c : FTPClient) (w : World) (host : List Char) (port : Int) :
    (connect_to_host c w host port).2.1.current_type = c.current_type := by
  simp only [connect_to_host]
  split_ifs <;> rfl

theorem set_type_same (c : FTPClient) (w : World) :
    (set_type c w c.current_type).2.1 = c := by
  simp only [set_type]
  split_ifs <;> rfl

theorem download_file_state (c : FTPClient) (w : World) (remote lcl : List Char) :
    (download_file c w remote lcl).2.1 = c := by
  have h := set_type_same c w
  simp only [download_file]
  split_ifs
  any_goals split
  all_goals first | rfl | exact h

theorem upload_file_state (c : FTPClient) (w : World) (lcl remote : List Char) :
    (upload_file c w lcl remote).2.1 = c := by
  have h := set_type_same c w
  simp only [upload_file]
  split_ifs
  any_goals split
  all_goals try split_ifs
  all_goals first | rfl | exact h

/-- C19: without a control connection `set_type` fails and does nothing at
all; with one, authenticated or not, its one event is `TYPE <code>` sent on
the control connection, it succeeds exactly when the next reply has code 200,
on success the transfer type becomes the code and nothing else in the session
changes, on failure the session is as before.  The transfer type of a fresh
session is `I`, and no other operation changes the transfer type. -/
theorem set_type_outcome (c : FTPClient) (w : World) (t : Char) (p : Peer)
    (a b : List Char) (port : Int) :
    (c.ctrl_sock < 0 → set_type c w t = (false, c, w)) ∧
    (0 ≤ c.ctrl_sock → w.sock c.ctrl_sock = some p →
      events_of w (set_type c w t).2.2
        = [Event.send c.ctrl_sock ("TYPE ".toList ++ [t] ++ ['\r', '\n'])] ∧
      ((set_type c w t).1 = true ↔ has_code (read_response p.rx).1 "200".toList = true) ∧
      ((set_type c w t).1 = true → (set_type c w t).2.1 = { c with current_type := t }) ∧
      ((set_type c w t).1 = false → (set_type c w t).2.1 = c)) ∧
    FTPClient.new.current_type = 'I' ∧
    (connect_to_host c w a port).2.1.current_type = c.current_type ∧
    (login c w a b).2.1.current_type = c.current_type ∧
    (logout c w).2.1.current_type = c.current_type ∧
    (list_files c w).2.1.current_type = c.current_type ∧
    (download_file c w a b).2.1.current_type = c.current_type ∧
    (upload_file c w a b).2.1.current_type = c.current_type := by
  refine ⟨?_, ?_, rfl, connect_to_host_type c w a port, login_type c w a b, logout_type c w,
    ?_, ?_, ?_⟩
  · intro h
    simp [set_type, h]
  · intro hfd hp
    rw [set_type_of_sock c w t p hfd hp]
    cases h : has_code (read_response p.rx).1 "200".toList
    · simp [events_of]
    · simp [events_of]
  · rw [list_files_session]
  · rw [download_file_state]
  · rw [upload_file_state]

theorem set_type_outcome_witness :
    (set_type { FTPClient.new with ctrl_sock := 0 }
      ⟨[], [⟨wire ["200 Type set to A".toList], [], []⟩], [], [], [], []⟩ 'A').1 = true :=
  (((set_type_outcome { FTPClient.new with ctrl_sock := 0 }
      ⟨[], [⟨wire ["200 Type set to A".toList], [], []⟩], [], [], [], []⟩ 'A'
      ⟨wire ["200 Type set to A".toList], [], []⟩ [] [] 0).2.1 (by decide) (by decide)).2.1).2
    (by decide)

/-- C18: for a session whose authenticated flag is false, `list_files`,
`download_file` and `upload_file` each return failure and leave both the
session and the world exactly as they were: nothing is sent, no data
connection is opened and no local file is touched. -/
theorem transfers_require_login (c : FTPClient) (w : World) (a b : List Char)
    (h : c.logged_in = false) :
    list_files c w = (false, c, w) ∧ download_file c w a b = (false, c, w) ∧
    upload_file c w a b = (false, c, w) := by
  refine ⟨?_, ?_, ?_⟩
  · simp [list_files, ensure_logged_in, h]
  · simp [download_file, ensure_logged_in, h]
  · simp [upload_file, ensure_logged_in, h]

theorem transfers_require_login_witness :
    download_file FTPClient.new ⟨[], [], [], [], [], []⟩ "a".toList "b".toList
      = (false, FTPClient.new, ⟨[], [], [], [], [], []⟩) :=
  (transfers_require_login FTPClient.new ⟨[], [], [], [], [], []⟩ "a".toList "b".toList
    rfl).2.1

/-! ## Session controller: the transfer type is sent again -/

theorem download_file_type_first (c : FTPClient) (w : World) (remote lcl : List Char) (p : Peer)
    (hl : c.logged_in = true) (hfd : 0 ≤ c.ctrl_sock) (hp : w.sock c.ctrl_sock = some p) :
    ∃ rest, events_of w (download_file c w remote lcl).2.2
        = Event.send c.ctrl_sock ("TYPE ".toList ++ [c.current_type] ++ ['\r', '\n']) :: rest ∧
      (has_code (read_response p.rx).1 "200".toList = false →
        (download_file c w remote lcl).1 = false ∧ rest = []) ∧
      (has_code (read_response p.rx).1 "200".toList = true →
        ∃ more, rest = Event.send c.ctrl_sock "PASV\r\n".toList :: more) := by
  have hst := set_type_of_sock c w c.current_type p hfd hp
  have hnot : ¬ c.ctrl_sock < 0 := by omega
  cases h200 : has_code (read_response p.rx).1 "200".toList
  · rw [h200] at hst
    simp only [Bool.false_eq_true, if_false] at hst
    refine ⟨[], ?_, ?_, ?_⟩
    · simp [download_file, ensure_logged_in, hl, hst, events_of]
    · intro _
      simp [download_file, ensure_logged_in, hl, hst]
    · intro h; cases h
  · rw [h200] at hst
    simp only [if_true] at hst
    have hlog : ∃ more, (download_file c w remote lcl).2.2.log
        = w.log ++ Event.send c.ctrl_sock ("TYPE ".toList ++ [c.current_type] ++ ['\r', '\n']) ::
          Event.send c.ctrl_sock "PASV\r\n".toList :: more := by
      simp only [download_file, ensure_logged_in, hl, hst]
      simp only [Bool.not_true, Bool.false_eq_true, if_false]
      split_ifs
      any_goals split
      all_goals exact ⟨_, by simp; rfl⟩
    obtain ⟨more, hm⟩ := hlog
    refine ⟨Event.send c.ctrl_sock "PASV\r\n".toList :: more, ?_, ?_, ?_⟩
    · simp [events_of, hm]
    · intro h; cases h
    · intro _; exact ⟨more, rfl⟩

theorem upload_file_type_first (c : FTPClient) (w : World) (remote lcl : List Char) (p : Peer)
    (hl : c.logged_in = true) (hfd : 0 ≤ c.ctrl_sock) (hp : w.sock c.ctrl_sock = some p) :
    ∃ rest, events_of w (upload_file c w lcl remote).2.2
        = Event.send c.ctrl_sock ("TYPE ".toList ++ [c.current_type] ++ ['\r', '\n']) :: rest ∧
      (has_code (read_response p.rx).1 "200".toList = false →
        (upload_file c w lcl remote).1 = false ∧ rest = []) ∧
      (has_code (read_response p.rx).1 "200".toList = true →
        ∃ more, rest = Event.send c.ctrl_sock "PASV\r\n".toList :: more) := by
  have hst := set_type_of_sock c w c.current_type p hfd hp
  have hnot : ¬ c.ctrl_sock < 0 := by omega
  cases h200 : has_code (read_response p.rx).1 "200".toList
  · rw [h200] at hst
    simp only [Bool.false_eq_true, if_false] at hst
    refine ⟨[], ?_, ?_, ?_⟩
    · simp [upload_file, ensure_logged_in, hl, hst, events_of]
    · intro _
      simp [upload_file, ensure_logged_in, hl, hst]
    · intro h; cases h
  · rw [h200] at hst
    simp only [if_true] at hst
    have hlog : ∃ more, (upload_file c w lcl remote).2.2.log
        = w.log ++ Event.send c.ctrl_sock ("TYPE ".toList ++ [c.current_type] ++ ['\r', '\n']) ::
          Event.send c.ctrl_sock "PASV\r\n".toList :: more := by
      simp only [upload_file, ensure_logged_in, hl, hst]
      simp only [Bool.not_true, Bool.false_eq_true, if_false]
      split_ifs
      any_goals split
      all_goals try split_ifs
      all_goals exact ⟨_, by simp; rfl⟩
    obtain ⟨more, hm⟩ := hlog
    refine ⟨Event.send c.ctrl_sock "PASV\r\n".toList :: more, ?_, ?_, ?_⟩
    · simp [events_of, hm]
    · intro h; cases h
    · intro _; exact ⟨more, rfl⟩

/-- C15 (as amended): for an authenticated session that holds a control
connection, with current transfer type `t`, the first thing `download_file`
and `upload_file` do to the outside is to send `TYPE t`, on every call; when
the reply to TYPE does not have code 200 the operation fails and that is all
it did (no PASV, no RETR or STOR); when it has, PASV is sent next; and the
session, its transfer type included, is after the call what it was before,
whatever the outcome. -/
theorem transfers_send_type_first (c : FTPClient) (w : World) (remote lcl : List Char)
    (p : Peer) (hl : c.logged_in = true) (hfd : 0 ≤ c.ctrl_sock)
    (hp : w.sock c.ctrl_sock = some p) :
    (∃ rest, events_of w (download_file c w remote lcl).2.2
        = Event.send c.ctrl_sock ("TYPE ".toList ++ [c.current_type] ++ ['\r', '\n']) :: rest ∧
      (has_code (read_response p.rx).1 "200".toList = false →
        (download_file c w remote lcl).1 = false ∧ rest = []) ∧
      (has_code (read_response p.rx).1 "200".toList = true →
        ∃ more, rest = Event.send c.ctrl_sock "PASV\r\n".toList :: more)) ∧
    (∃ rest, events_of w (upload_file c w lcl remote).2.2
        = Event.send c.ctrl_sock ("TYPE ".toList ++ [c.current_type] ++ ['\r', '\n']) :: rest ∧
      (has_code (read_response p.rx).1 "200".toList = false →
        (upload_file c w lcl remote).1 = false ∧ rest = []) ∧
      (has_code (read_response p.rx).1 "200".toList = true →
        ∃ more, rest = Event.send c.ctrl_sock "PASV\r\n".toList :: more)) ∧
    (download_file c w remote lcl).2.1 = c ∧ (upload_file c w lcl remote).2.1 = c :=
  ⟨download_file_type_first c w remote lcl p hl hfd hp,
    upload_file_type_first c w remote lcl p hl hfd hp,
    download_file_state c w remote lcl, upload_file_state c w lcl remote⟩

theorem transfers_send_type_first_witness :
    (download_file ⟨0, true, [], 'A'⟩
      ⟨[], [⟨wire ["500 No".toList], [], []⟩], [], [], [], []⟩ "r".toList "l".toList).2.1
      = ⟨0, true, [], 'A'⟩ :=
  (transfers_send_type_first ⟨0, true, [], 'A'⟩
    ⟨[], [⟨wire ["500 No".toList], [], []⟩], [], [], [], []⟩ "r".toList "l".toList
    ⟨wire ["500 No".toList], [], []⟩ rfl (by decide) (by decide)).2.2.1

/-- C15 (as stated) fails on an authenticated session without a control
connection: a fresh session connects (greeting 220), logs in (230 to USER)
and calls `connect_to_host` again while no address connects, which leaves it
authenticated with `ctrl_sock = -1`; `download_file` and `upload_file` called
next fail without sending `TYPE` or anything else. -/
theorem transfers_without_connection_send_nothing :
    (connect_login_connect
      ⟨[some ⟨wire ["220 Ready".toList, "230 Welcome".toList], [], []⟩, none], [], [], [], [], []⟩
      "host".toList "bob".toList "secret".toList 21).2.2.2.1 = ⟨-1, true, "host".toList, 'I'⟩ ∧
    events_of
      (connect_login_connect
        ⟨[some ⟨wire ["220 Ready".toList, "230 Welcome".toList], [], []⟩, none], [], [], [], [],
          []⟩ "host".toList "bob".toList "secret".toList 21).2.2.2.2
      (download_file
        (connect_login_connect
          ⟨[some ⟨wire ["220 Ready".toList, "230 Welcome".toList], [], []⟩, none], [], [], [],
            [], []⟩ "host".toList "bob".toList "secret".toList 21).2.2.2.1
        (connect_login_connect
          ⟨[some ⟨wire ["220 Ready".toList, "230 Welcome".toList], [], []⟩, none], [], [], [],
            [], []⟩ "host".toList "bob".toList "secret".toList 21).2.2.2.2
        "file.bin".toList "out.bin".toList).2.2 = [] ∧
    events_of
      (connect_login_connect
        ⟨[some ⟨wire ["220 Ready".toList, "230 Welcome".toList], [], []⟩, none], [], [], [], [],
          []⟩ "host".toList "bob".toList "secret".toList 21).2.2.2.2
      (upload_file
        (connect_login_connect
          ⟨[some ⟨wire ["220 Ready".toList, "230 Welcome".toList], [], []⟩, none], [], [], [],
            [], []⟩ "host".toList "bob".toList "secret".toList 21).2.2.2.1
        (connect_login_connect
          ⟨[some ⟨wire ["220 Ready".toList, "230 Welcome".toList], [], []⟩, none], [], [], [],
            [], []⟩ "host".toList "bob".toList "secret".toList 21).2.2.2.2
        "in.bin".toList "file.bin".toList).2.2 = [] := by
  decide

/-! ## Transfers: the bytes forwarded -/

/-- Blocks without a NUL byte are forwarded whole by the loop of `list_files`. -/
theorem list_loop_text : ∀ (blocks : List (List Char)) (out : List Char),
    (∀ b ∈ blocks, b ≠ [] ∧ '\x00' ∉ b) → list_loop blocks out = (out ++ blocks.flatten, []) := by
  intro blocks
  induction blocks with
  | nil => intro out _; simp [list_loop]
  | cons b bs ih =>
    intro out h
    have hb := h b (by simp)
    simp [list_loop, hb.1, c_str_self b hb.2, ih (out ++ b) (fun x hx => h x (by simp [hx]))]

/-- C16 (the code at the failing input): a fresh session connects, logs in
and calls `list_files`; the server sends the bytes `a`, NUL, `b`, `c` on the
data connection, in the two blocks `a NUL b` and `c`, and closes it.
`list_files` reports success, and what reached `std::cout` is `ac`. -/
theorem list_files_cuts_at_nul :
    (connect_login_list
      ⟨[some ⟨wire ["220 Ready".toList, "230 Welcome".toList, "227 (10,0,0,5,200,10)".toList,
          "150 Here it comes".toList, "226 Done".toList], [], []⟩,
        some ⟨[], [['a', '\x00', 'b'], ['c']], []⟩], [], [], [], [], []⟩
      "host".toList "bob".toList "secret".toList 21).2.2.1 = true ∧
    (connect_login_list
      ⟨[some ⟨wire ["220 Ready".toList, "230 Welcome".toList, "227 (10,0,0,5,200,10)".toList,
          "150 Here it comes".toList, "226 Done".toList], [], []⟩,
        some ⟨[], [['a', '\x00', 'b'], ['c']], []⟩], [], [], [], [], []⟩
      "host".toList "bob".toList "secret".toList 21).2.2.2.2.out = ['a', 'c'] := by
  decide

theorem write_all_outcome : ∀ (wr : List Int) (pending : List Char),
    write_outcome wr pending (write_all wr pending) := by
  intro wr
  induction wr with
  | nil =>
    intro pending
    exact ⟨[], by simp [write_all], by simp [write_all], by simp [write_all]⟩
  | cons r rs ih =>
    intro pending
    by_cases hp : pending = []
    · subst hp
      exact ⟨[], by simp [write_all], by simp [write_all], by simp [write_all]⟩
    · by_cases hr : r ≤ 0
      · refine ⟨[r], by simp [write_all, hp, hr], by simp [write_all, hp, hr], ?_⟩
        intro _
        exact ⟨[], r, rfl, hr, by simp, ⟨pending, hp, by simp [write_all, hp, hr]⟩,
          by simp, by simp [write_all, hp, hr]⟩
      · obtain ⟨used, e1, e2, e3⟩ := ih (pending.drop r.toNat)
        have hw : write_all (r :: rs) pending
            = ((write_all rs (pending.drop r.toNat)).1,
                pending.take r.toNat ++ (write_all rs (pending.drop r.toNat)).2.1,
                (write_all rs (pending.drop r.toNat)).2.2) := by
          simp [write_all, hp, hr]
        have hpl : 0 < pending.length := List.length_pos.2 hp
        have htk : (pending.take r.toNat).length = min r.toNat pending.length :=
          List.length_take _ _
        have hdr : (pending.drop r.toNat).length = pending.length - r.toNat :=
          List.length_drop _ _
        have hrn : 1 ≤ r.toNat := by omega
        rw [hw]
        refine ⟨r :: used, ?_, ?_, ?_⟩
        · simp only [List.cons_append]
          rw [← e1]
        · intro hok
          obtain ⟨a1, a2, a3, a4⟩ := e2 hok
          refine ⟨?_, ?_, ?_, ?_⟩
          · intro x hx
            rcases List.mem_cons.1 hx with h | h
            · rw [h]; omega
            · exact a1 x h
          · simp only [a2, List.take_append_drop]
          · simp only [List.length_cons]
            omega
          · intro hl
            have := a4 hl
            simp only [List.map_cons, List.sum_cons]
            omega
        · intro hok
          obtain ⟨good, q, a1, a2, a3, ⟨sfx, s1, s2⟩, a5, a6⟩ := e3 hok
          refine ⟨r :: good, q, by simp [a1], a2, ?_, ⟨sfx, s1, ?_⟩, ?_, ?_⟩
          · intro x hx
            rcases List.mem_cons.1 hx with h | h
            · rw [h]; omega
            · exact a3 x h
          · simp only [List.append_assoc, ← s2, List.take_append_drop]
          · simp only [List.length_cons, List.length_append]
            omega
          · simp only [List.length_append, List.map_cons, List.sum_cons]
            omega

theorem upload_loop_outcome : ∀ (src : List (List Char)) (wr : List Int),
    write_outcome wr (source_bytes src) (upload_loop src wr) := by
  intro src
  induction src with
  | nil =>
    intro wr
    exact ⟨[], by simp [upload_loop], by simp [upload_loop, source_bytes], by simp [upload_loop]⟩
  | cons b bs ih =>
    intro wr
    by_cases hb : b = []
    · subst hb
      exact ⟨[], by simp [upload_loop], by simp [upload_loop, source_bytes],
        by simp [upload_loop]⟩
    · obtain ⟨u1, e1, e2, e3⟩ := write_all_outcome wr b
      have hsb : source_bytes (b :: bs) = b ++ source_bytes bs := by
        simp only [source_bytes, hb, if_false]
      rw [hsb]
      cases hok : (write_all wr b).1
      · have hu : upload_loop (b :: bs) wr
            = (false, (write_all wr b).2.1, (write_all wr b).2.2) := by
          simp [upload_loop, hb, hok]
        rw [hu]
        obtain ⟨good, q, a1, a2, a3, ⟨sfx, s1, s2⟩, a5, a6⟩ := e3 hok
        refine ⟨u1, e1, by simp, ?_⟩
        intro _
        refine ⟨good, q, a1, a2, a3, ⟨sfx ++ source_bytes bs, by simp [s1], ?_⟩, a5, a6⟩
        rw [← List.append_assoc, ← s2]
      · obtain ⟨b1, b2, b3, b4⟩ := e2 hok
        obtain ⟨u2, f1, f2, f3⟩ := ih (write_all wr b).2.2
        have hu : upload_loop (b :: bs) wr
            = ((upload_loop bs (write_all wr b).2.2).1,
                b ++ (upload_loop bs (write_all wr b).2.2).2.1,
                (upload_loop bs (write_all wr b).2.2).2.2) := by
          simp [upload_loop, hb, hok, b2]
        rw [hu]
        refine ⟨u1 ++ u2, ?_, ?_, ?_⟩
        · rw [List.append_assoc, ← f1, ← e1]
        · intro h
          obtain ⟨c1, c2, c3, c4⟩ := f2 h
          refine ⟨?_, ?_, ?_, ?_⟩
          · intro x hx
            rcases List.mem_append.1 hx with h | h
            · exact b1 x h
            · exact c1 x h
          · simp only [c2]
          · simp only [List.length_append]
            omega
          · intro hl
            have h5 := c4 hl
            have h6 := b4 (by rw [f1]; simp [hl])
            simp only [List.length_append, List.map_append, List.sum_append]
            omega
        · intro h
          obtain ⟨good, q, a1, a2, a3, ⟨sfx, s1, s2⟩, a5, a6⟩ := f3 h
          have h6 := b4 (by rw [f1, a1]; simp)
          refine ⟨u1 ++ good, q, by simp [a1], a2, ?_, ⟨sfx, s1, ?_⟩, ?_, ?_⟩
          · intro x hx
            rcases List.mem_append.1 hx with h | h
            · exact b1 x h
            · exact a3 x h
          · rw [List.append_assoc, ← s2]
          · simp only [List.length_append]
            omega
          · simp only [List.length_append, List.map_append, List.sum_append]
            omega

/-- When every `write` accepts at least one byte, the loops of `upload_file`
write exactly the bytes of the source. -/
theorem upload_loop_all (src : List (List Char)) (wr : List Int) (h : ∀ r ∈ wr, 1 ≤ r) :
    (upload_loop src wr).1 = true ∧ (upload_loop src wr).2.1 = source_bytes src := by
  obtain ⟨used, e1, e2, e3⟩ := upload_loop_outcome src wr
  cases hok : (upload_loop src wr).1
  · obtain ⟨good, q, a1, a2, _, _⟩ := e3 hok
    have : q ∈ wr := by rw [e1, a1]; simp
    have := h q this
    omega
  · exact ⟨rfl, (e2 hok).2.1⟩

theorem positive_run_within (r : Int) (rest : List Int) (hr : r ≤ 0) :
    ∀ (used left good : List Int), used ++ left = good ++ r :: rest → (∀ u ∈ used, 1 ≤ u) →
      ∃ k, good = used ++ k ∧ left = k ++ r :: rest := by
  intro used
  induction used with
  | nil => intro left good h _; exact ⟨good, rfl, by simpa using h⟩
  | cons u us ih =>
    intro left good h hu
    cases good with
    | nil =>
      simp only [List.cons_append, List.nil_append, List.cons.injEq] at h
      have := hu u (by simp)
      omega
    | cons g gs =>
      simp only [List.cons_append, List.cons.injEq] at h
      obtain ⟨k, k1, k2⟩ := ih left gs h.2 (fun x hx => hu x (by simp [hx]))
      exact ⟨k, by rw [h.1, k1]; rfl, k2⟩

theorem first_failure_unique (q r : Int) (left rest : List Int) (hq : q ≤ 0) (hr : r ≤ 0) :
    ∀ (a b : List Int), a ++ q :: left = b ++ r :: rest → (∀ x ∈ a, 1 ≤ x) →
      (∀ x ∈ b, 1 ≤ x) → a = b ∧ q = r ∧ left = rest := by
  intro a
  induction a with
  | nil =>
    intro b h _ hb
    cases b with
    | nil => simpa using h
    | cons y ys =>
      simp only [List.nil_append, List.cons_append, List.cons.injEq] at h
      have := hb y (by simp)
      omega
  | cons x xs ih =>
    intro b h ha hb
    cases b with
    | nil =>
      simp only [List.nil_append, List.cons_append, List.cons.injEq] at h
      have := ha x (by simp)
      omega
    | cons y ys =>
      simp only [List.cons_append, List.cons.injEq] at h
      obtain ⟨i1, i2, i3⟩ := ih ys h.2 (fun z hz => ha z (by simp [hz]))
        (fun z hz => hb z (by simp [hz]))
      exact ⟨by rw [h.1, i1], i2, i3⟩

/-- The first `write` that reports zero or an error, made while bytes of the
source are still unwritten, ends the loops of `upload_file` with failure: no
`write` result after it is used, and the bytes accepted are what the calls
before it took. -/
theorem upload_loop_fails_at (src : List (List Char)) (good rest : List Int) (r : Int)
    (hg : ∀ g ∈ good, 1 ≤ g) (hr : r ≤ 0)
    (hs : (good.map Int.toNat).sum < (source_bytes src).length) :
    (upload_loop src (good ++ r :: rest)).1 = false ∧
    (upload_loop src (good ++ r :: rest)).2.2 = rest ∧
    (∃ sfx, sfx ≠ [] ∧ source_bytes src = (upload_loop src (good ++ r :: rest)).2.1 ++ sfx) ∧
    good.length ≤ (upload_loop src (good ++ r :: rest)).2.1.length ∧
    (upload_loop src (good ++ r :: rest)).2.1.length ≤ (good.map Int.toNat).sum := by
  obtain ⟨used, e1, e2, e3⟩ := upload_loop_outcome src (good ++ r :: rest)
  cases hok : (upload_loop src (good ++ r :: rest)).1
  · obtain ⟨g1, q, a1, a2, a3, a4, a5, a6⟩ := e3 hok
    rw [a1, List.append_assoc, List.singleton_append] at e1
    obtain ⟨i1, i2, i3⟩ := first_failure_unique q r _ rest a2 hr g1 good e1.symm a3 hg
    subst i1
    exact ⟨rfl, i3, a4, a5, a6⟩
  · exfalso
    obtain ⟨b1, b2, b3, b4⟩ := e2 hok
    obtain ⟨k, k1, k2⟩ := positive_run_within r rest hr used _ good e1.symm b1
    have h4 := b4 (by rw [k2]; simp)
    rw [k1] at hs
    simp only [List.map_append, List.sum_append] at hs
    omega

/-- C17: an authenticated session on control descriptor 0 calls
`upload_file`; the replies to TYPE, PASV and STOR let the transfer start (200,
a 227 line that parses, 150 or 125), the data connection is made and the
local file opens.  Then what goes to the data connection is one run of bytes
that is an initial part of the source's bytes, in order, tied to the `write`
results as `write_outcome` says; when every `write` call accepts at least one
byte it is exactly the source's bytes; when the calls that accept at least
one byte leave part of the source unwritten and the next call reports zero
or an error, the call fails, no `write` result after that one is used, the
bytes accepted are those the earlier calls took, and the completion reply is
not read; and the call succeeds exactly when no `write` failed and the
completion reply has code 226.  The data connection is closed in every
case. -/
theorem upload_file_writes_source (ctl dat : Peer) (rest : List (Option Peer))
    (src : List (List Char)) (fs : List (Option (List (List Char))))
    (fl : List (List Char × List Char)) (out : List Char) (lg : List Event)
    (ty pvs op fin : List (List Char)) (pv : List Char)
    (rx1 rx2 rx3 rx4 : List (Option Char))
    (host lcl remote ip : List Char) (port : Int) (t : Char)
    (h1 : read_response ctl.rx = (ty, rx1)) (c1 : has_code ty "200".toList = true)
    (h2 : read_response rx1 = (pv :: pvs, rx2)) (c2 : pv.take 3 = "227".toList)
    (hparse : parse_pasv_response pv [] 0 = (true, ip, port))
    (h3 : read_response rx2 = (op, rx3)) (c3 : opening_ok op = true)
    (h4 : read_response rx3 = (fin, rx4)) :
    events_of ⟨some dat :: rest, [ctl], some src :: fs, fl, out, lg⟩
        (upload_file ⟨0, true, host, t⟩ ⟨some dat :: rest, [ctl], some src :: fs, fl, out, lg⟩
          lcl remote).2.2
      = [Event.send 0 ("TYPE ".toList ++ [t] ++ ['\r', '\n']),
         Event.send 0 "PASV\r\n".toList,
         Event.connect ip port 1,
         Event.send 0 ("STOR ".toList ++ remote ++ ['\r', '\n']),
         Event.fopen lcl "rb".toList true,
         Event.write 1 (upload_loop src dat.wr).2.1,
         Event.fclose lcl,
         Event.close 1] ∧
    write_outcome dat.wr (source_bytes src) (upload_loop src dat.wr) ∧
    ((upload_file ⟨0, true, host, t⟩ ⟨some dat :: rest, [ctl], some src :: fs, fl, out, lg⟩
        lcl remote).1 = true ↔
      ((upload_loop src dat.wr).1 = true ∧ has_code fin "226".toList = true)) ∧
    ((upload_loop src dat.wr).1 = false →
      (upload_file ⟨0, true, host, t⟩ ⟨some dat :: rest, [ctl], some src :: fs, fl, out, lg⟩
        lcl remote).2.2.sock 0 = some { ctl with rx := rx3 }) ∧
    ((∀ r ∈ dat.wr, 1 ≤ r) →
      (upload_loop src dat.wr).1 = true ∧ (upload_loop src dat.wr).2.1 = source_bytes src) ∧
    (∀ (good left : List Int) (r : Int), dat.wr = good ++ r :: left → (∀ g ∈ good, 1 ≤ g) →
      r ≤ 0 → (good.map Int.toNat).sum < (source_bytes src).length →
      (upload_file ⟨0, true, host, t⟩ ⟨some dat :: rest, [ctl], some src :: fs, fl, out, lg⟩
        lcl remote).1 = false ∧
      (upload_loop src dat.wr).2.2 = left ∧
      (∃ sfx, sfx ≠ [] ∧ source_bytes src = (upload_loop src dat.wr).2.1 ++ sfx) ∧
      good.length ≤ (upload_loop src dat.wr).2.1.length ∧
      (upload_loop src dat.wr).2.1.length ≤ (good.map Int.toNat).sum) := by
  have e : upload_file ⟨0, true, host, t⟩
      ⟨some dat :: rest, [ctl], some src :: fs, fl, out, lg⟩ lcl remote
      = if (upload_loop src dat.wr).1 = true then
          (has_code fin "226".toList, ⟨0, true, host, t⟩,
            ⟨rest, [{ ctl with rx := rx4 }, { dat with wr := (upload_loop src dat.wr).2.2 }], fs,
              fl, out,
              lg ++ [Event.send 0 ("TYPE ".toList ++ [t] ++ ['\r', '\n']),
                Event.send 0 "PASV\r\n".toList,
                Event.connect ip port 1,
                Event.send 0 ("STOR ".toList ++ remote ++ ['\r', '\n']),
                Event.fopen lcl "rb".toList true,
                Event.write 1 (upload_loop src dat.wr).2.1,
                Event.fclose lcl,
                Event.close 1]⟩)
        else
          (false, ⟨0, true, host, t⟩,
            ⟨rest, [{ ctl with rx := rx3 }, { dat with wr := (upload_loop src dat.wr).2.2 }], fs,
              fl, out,
              lg ++ [Event.send 0 ("TYPE ".toList ++ [t] ++ ['\r', '\n']),
                Event.send 0 "PASV\r\n".toList,
                Event.connect ip port 1,
                Event.send 0 ("STOR ".toList ++ remote ++ ['\r', '\n']),
                Event.fopen lcl "rb".toList true,
                Event.write 1 (upload_loop src dat.wr).2.1,
                Event.fclose lcl,
                Event.close 1]⟩) := by
    simp only [String.toList] at c1 c2
    cases hu : (upload_loop src dat.wr).1 <;> cases h226 : has_code fin "226".toList <;>
      simp only [String.toList] at h226 <;>
      simp [upload_file, ensure_logged_in, set_type, enter_passive_mode, send_cmd,
        recv_response, connect_to_server, fopen, upload_transfer, upload_result, close,
        World.sock, World.setSock, World.emit, h1, h2, h3, h4, c1, c2, c3, hparse, hu, h226]
  rw [e]
  refine ⟨?_, upload_loop_outcome src dat.wr, ?_, ?_, upload_loop_all src dat.wr, ?_⟩
  · split_ifs <;> simp [events_of]
  · cases (upload_loop src dat.wr).1 <;> simp
  · intro hu
    simp [hu, World.sock]
  · intro good left r hwr hg hr hs
    rw [hwr]
    obtain ⟨q1, q2, q3, q4, q5⟩ := upload_loop_fails_at src good left r hg hr hs
    refine ⟨?_, q2, q3, q4, q5⟩
    rw [if_neg (by rw [q1]; simp)]

theorem upload_file_writes_source_witness :
    (upload_file ⟨0, true, "host".toList, 'I'⟩
      ⟨[some ⟨[], [], [2, 0, 5]⟩],
        [⟨wire ["200 Type set".toList, "227 (10,0,0,5,200,10)".toList, "150 Go".toList,
          "226 Done".toList], [], []⟩],
        [some ["hello".toList]], [], [], []⟩ "in.bin".toList "file.bin".toList).1 = false ∧
    (upload_loop ["hello".toList] [2, 0, 5]).2.2 = [5] :=
  ⟨((upload_file_writes_source
      ⟨wire ["200 Type set".toList, "227 (10,0,0,5,200,10)".toList, "150 Go".toList,
        "226 Done".toList], [], []⟩
      ⟨[], [], [2, 0, 5]⟩ [] ["hello".toList] [] [] [] []
      ["200 Type set".toList] [] ["150 Go".toList] ["226 Done".toList]
      "227 (10,0,0,5,200,10)".toList
      (wire ["227 (10,0,0,5,200,10)".toList, "150 Go".toList, "226 Done".toList])
      (wire ["150 Go".toList, "226 Done".toList]) (wire ["226 Done".toList]) []
      "host".toList "in.bin".toList "file.bin".toList "10.0.0.5".toList 51210 'I'
      (by decide) (by decide) (by decide) (by decide) (by decide) (by decide) (by decide)
      (by decide)).2.2.2.2.2 [2] [5] 0 rfl (by decide) (by decide) (by decide)).1,
   ((upload_file_writes_source
      ⟨wire ["200 Type set".toList, "227 (10,0,0,5,200,10)".toList, "150 Go".toList,
        "226 Done".toList], [], []⟩
      ⟨[], [], [2, 0, 5]⟩ [] ["hello".toList] [] [] [] []
      ["200 Type set".toList] [] ["150 Go".toList] ["226 Done".toList]
      "227 (10,0,0,5,200,10)".toList
      (wire ["227 (10,0,0,5,200,10)".toList, "150 Go".toList, "226 Done".toList])
      (wire ["150 Go".toList, "226 Done".toList]) (wire ["226 Done".toList]) []
      "host".toList "in.bin".toList "file.bin".toList "10.0.0.5".toList 51210 'I'
      (by decide) (by decide) (by decide) (by decide) (by decide) (by decide) (by decide)
      (by decide)).2.2.2.2.2 [2] [5] 0 rfl (by decide) (by decide) (by decide)).2.1⟩

end NanoFtp
